import Mathlib

/-!
# Sega Zaxxon / Congo Bongo discrete sound triggers

Shallow embedding of the five 8255 PPI write handlers of
`src/mame/audio/zaxxon.c` (`zaxxon_sound_a_w`, `zaxxon_sound_b_w`,
`zaxxon_sound_c_w`, `congo_sound_b_w`, `congo_sound_c_w`).

* The driver state is the three stored port bytes `sound_state[0..2]`.
* The sample engine is external.  Every call a handler makes into it
  (`sample_set_volume`, `sample_start`, `sample_stop`, `sample_playing`) is
  recorded, in program order, in the list the handler returns; the answers
  of `sample_playing` are supplied by a parameter `playing`.
* `UINT8` values are natural numbers; the `UINT8` variable `diff` is reduced
  modulo 256 explicitly.
* The volume expression `0.5 + 0.157 * (data & 0x03)` is evaluated as C does:
  the literals, the product and the sum are IEEE 754 binary64 values
  (round to nearest, ties to even), and the result is converted to the binary32
  `float` parameter of `sample_set_volume`.  Floating-point values are
  represented by the rational numbers they denote.
-/

namespace Zaxxon

/-! ## Data model -/

/-- A call made by a handler into the sample engine (`sound/samples.h`). -/
inductive SampleCall where
  | sample_set_volume (channel : Nat) (volume : ℚ)
  | sample_start (channel samplenum : Nat) (loop : Bool)
  | sample_stop (channel : Nat)
  | sample_playing (channel : Nat)
  deriving DecidableEq

/-- The part of `zaxxon_state` the sound handlers use: `UINT8 sound_state[3]`,
one field per array index. -/
structure zaxxon_state where
  sound_state0 : Nat
  sound_state1 : Nat
  sound_state2 : Nat
  deriving DecidableEq

/-- C truth value of an integer used as a condition: nonzero. -/
def truthy (x : Nat) : Bool := x != 0

/-- The statement `if (c) call;` as the list of calls it makes. -/
def when_ (c : Bool) (calls : List SampleCall) : List SampleCall :=
  if c then calls else []

/-- The statement `if (c && !sample_playing(samples, ch)) call;`: the engine is
queried only when `c` holds (short-circuit `&&`), and `call` is made only when
the answer is "not playing". -/
def when_not_playing (c : Bool) (playing : Nat → Bool) (ch : Nat)
    (calls : List SampleCall) : List SampleCall :=
  if c then SampleCall.sample_playing ch :: (if !playing ch then calls else []) else []

/-! ## C floating-point arithmetic -/

/-- Number of binary digits of `n`, by repeated halving (`fuel` bounds the number
of halvings; `n` itself is always enough). -/
def bit_length : Nat → Nat → Nat
  | 0, _ => 0
  | fuel + 1, n => if n = 0 then 0 else bit_length fuel (n / 2) + 1

/-- Position of the leading binary digit of `n`: the integer part of its base 2
logarithm, for `n` at least 1. -/
def ilog2 (n : Nat) : Nat := bit_length n n - 1

/-- Rounding of a positive rational to the nearest binary floating-point number
with `p` significant bits, ties to even (exponent range not modelled: no
overflow, no subnormals).  `lg` is the binary exponent of `q`, `ulp` the spacing
of the `p`-bit numbers around `q`, `m` and `r` the integer and fractional part of
`q / ulp`. -/
def round_pos (p : Nat) (q : ℚ) : ℚ :=
  let n := q.num.toNat
  let d := q.den
  let e0 : Int := (ilog2 n : Int) - (ilog2 d : Int)
  let lg : Int := if (d : ℚ) * 2 ^ e0 ≤ (n : ℚ) then e0 else e0 - 1
  let ulp : ℚ := 2 ^ (lg - ((p : Int) - 1))
  let x : ℚ := q / ulp
  let m : Int := ⌊x⌋
  let r : ℚ := x - m
  let m1 : Int :=
    if r < 1 / 2 then m else if 1 / 2 < r then m + 1 else if m % 2 = 0 then m else m + 1
  m1 * ulp

/-- IEEE 754 round to nearest, ties to even, to `p` significant bits. -/
def round_nearest_even (p : Nat) (q : ℚ) : ℚ :=
  if q = 0 then 0 else if 0 < q then round_pos p q else -round_pos p (-q)

/-- The C `double` (binary64, 53 significant bits) nearest to `q`: the value of a
decimal constant such as `0.157`, or of an arithmetic result (every operation is
rounded to `double`, as with `FLT_EVAL_METHOD` 0). -/
def to_double (q : ℚ) : ℚ := round_nearest_even 53 q

/-- Conversion of a `double` to C `float` (binary32, 24 significant bits), as
happens when a `double` is passed for the `float volume` parameter of
`sample_set_volume`. -/
def to_float (q : ℚ) : ℚ := round_nearest_even 24 q

/-- C `a + b` on doubles. -/
def double_add (a b : ℚ) : ℚ := to_double (a + b)

/-- C `a * b` on doubles. -/
def double_mul (a b : ℚ) : ℚ := to_double (a * b)

/-! ## Zaxxon PPI write handlers -/

/-- Source `zaxxon_sound_a_w`, lines 114-147. -/
def zaxxon_sound_a_w (state : zaxxon_state) (_playing : Nat → Bool) (data : Nat) :
    zaxxon_state × List SampleCall :=
  let diff := (data ^^^ state.sound_state0) % 256
  let state1 := { state with sound_state0 := data }
  (state1,
    -- PLAYER SHIP A/B: volume (`data & 0x03` is an `int` in 0..3, exact as a `double`)
    [SampleCall.sample_set_volume 10 (to_float (double_add (to_double 0.5)
        (double_mul (to_double 0.157) ((data &&& 0x03 : Nat) : ℚ))))] ++
    [SampleCall.sample_set_volume 11 (to_float (double_add (to_double 0.5)
        (double_mul (to_double 0.157) ((data &&& 0x03 : Nat) : ℚ))))] ++
    -- PLAYER SHIP C: channel 10
    when_ (truthy (diff &&& 0x04) && !truthy (data &&& 0x04)) [SampleCall.sample_start 10 10 true] ++
    when_ (truthy (diff &&& 0x04) && truthy (data &&& 0x04)) [SampleCall.sample_stop 10] ++
    -- PLAYER SHIP D: channel 11
    when_ (truthy (diff &&& 0x08) && !truthy (data &&& 0x08)) [SampleCall.sample_start 11 11 true] ++
    when_ (truthy (diff &&& 0x08) && truthy (data &&& 0x08)) [SampleCall.sample_stop 11] ++
    -- HOMING MISSILE: channel 0
    when_ (truthy (diff &&& 0x10) && !truthy (data &&& 0x10)) [SampleCall.sample_start 0 0 true] ++
    when_ (truthy (diff &&& 0x10) && truthy (data &&& 0x10)) [SampleCall.sample_stop 0] ++
    -- BASE MISSILE: channel 1
    when_ (truthy (diff &&& 0x20) && !truthy (data &&& 0x20)) [SampleCall.sample_start 1 1 false] ++
    -- LASER: channel 2
    when_ (truthy (diff &&& 0x40) && !truthy (data &&& 0x40)) [SampleCall.sample_start 2 2 true] ++
    when_ (truthy (diff &&& 0x40) && truthy (data &&& 0x40)) [SampleCall.sample_stop 2] ++
    -- BATTLESHIP: channel 3
    when_ (truthy (diff &&& 0x80) && !truthy (data &&& 0x80)) [SampleCall.sample_start 3 3 true] ++
    when_ (truthy (diff &&& 0x80) && truthy (data &&& 0x80)) [SampleCall.sample_stop 3])

/-- Source `zaxxon_sound_b_w`, lines 150-165. -/
def zaxxon_sound_b_w (state : zaxxon_state) (playing : Nat → Bool) (data : Nat) :
    zaxxon_state × List SampleCall :=
  let diff := (data ^^^ state.sound_state1) % 256
  let state1 := { state with sound_state1 := data }
  (state1,
    -- S-EXP: channel 4
    when_ (truthy (diff &&& 0x10) && !truthy (data &&& 0x10)) [SampleCall.sample_start 4 4 false] ++
    -- M-EXP: channel 5
    when_not_playing (truthy (diff &&& 0x20) && !truthy (data &&& 0x20)) playing 5
      [SampleCall.sample_start 5 5 false] ++
    -- CANNON: channel 6
    when_ (truthy (diff &&& 0x80) && !truthy (data &&& 0x80)) [SampleCall.sample_start 6 6 false])

/-- Source `zaxxon_sound_c_w`, lines 168-183. -/
def zaxxon_sound_c_w (state : zaxxon_state) (playing : Nat → Bool) (data : Nat) :
    zaxxon_state × List SampleCall :=
  let diff := (data ^^^ state.sound_state2) % 256
  let state1 := { state with sound_state2 := data }
  (state1,
    -- SHOT: channel 7
    when_ (truthy (diff &&& 0x01) && !truthy (data &&& 0x01)) [SampleCall.sample_start 7 7 false] ++
    -- ALARM2: channel 8
    when_ (truthy (diff &&& 0x04) && !truthy (data &&& 0x04)) [SampleCall.sample_start 8 8 false] ++
    -- ALARM3: channel 9
    when_not_playing (truthy (diff &&& 0x08) && !truthy (data &&& 0x08)) playing 9
      [SampleCall.sample_start 9 9 false])

/-! ## Congo PPI write handlers -/

/-- Source `congo_sound_b_w`, lines 226-237. -/
def congo_sound_b_w (state : zaxxon_state) (playing : Nat → Bool) (data : Nat) :
    zaxxon_state × List SampleCall :=
  let diff := (data ^^^ state.sound_state1) % 256
  let state1 := { state with sound_state1 := data }
  (state1,
    -- GORILLA: channel 0
    when_not_playing (truthy (diff &&& 0x02) && !truthy (data &&& 0x02)) playing 0
      [SampleCall.sample_start 0 0 false])

/-- Source `congo_sound_c_w`, lines 240-262. -/
def congo_sound_c_w (state : zaxxon_state) (_playing : Nat → Bool) (data : Nat) :
    zaxxon_state × List SampleCall :=
  let diff := (data ^^^ state.sound_state2) % 256
  let state1 := { state with sound_state2 := data }
  (state1,
    -- BASS DRUM: channel 1
    when_ (truthy (diff &&& 0x01) && !truthy (data &&& 0x01)) [SampleCall.sample_start 1 1 false] ++
    when_ (truthy (diff &&& 0x01) && truthy (data &&& 0x01)) [SampleCall.sample_stop 1] ++
    -- CONGA (LOW): channel 2
    when_ (truthy (diff &&& 0x02) && !truthy (data &&& 0x02)) [SampleCall.sample_start 2 2 false] ++
    when_ (truthy (diff &&& 0x02) && truthy (data &&& 0x02)) [SampleCall.sample_stop 2] ++
    -- CONGA (HIGH): channel 3
    when_ (truthy (diff &&& 0x04) && !truthy (data &&& 0x04)) [SampleCall.sample_start 3 3 false] ++
    when_ (truthy (diff &&& 0x04) && truthy (data &&& 0x04)) [SampleCall.sample_stop 3] ++
    -- RIM: channel 4
    when_ (truthy (diff &&& 0x08) && !truthy (data &&& 0x08)) [SampleCall.sample_start 4 4 false] ++
    when_ (truthy (diff &&& 0x08) && truthy (data &&& 0x08)) [SampleCall.sample_stop 4])

/-! ## Sequences of writes and the handler table -/

/-- The five write handlers of the file. -/
inductive Handler where
  | zaxxon_a
  | zaxxon_b
  | zaxxon_c
  | congo_b
  | congo_c
  deriving DecidableEq

/-- The embedded handler function. -/
def Handler.run : Handler → zaxxon_state → (Nat → Bool) → Nat → zaxxon_state × List SampleCall
  | .zaxxon_a => zaxxon_sound_a_w
  | .zaxxon_b => zaxxon_sound_b_w
  | .zaxxon_c => zaxxon_sound_c_w
  | .congo_b => congo_sound_b_w
  | .congo_c => congo_sound_c_w

/-- The entry of `sound_state` the handler diffs against and overwrites
(index 0 for port A, 1 for port B, 2 for port C). -/
def Handler.stored : Handler → zaxxon_state → Nat
  | .zaxxon_a, st => st.sound_state0
  | .zaxxon_b, st => st.sound_state1
  | .zaxxon_c, st => st.sound_state2
  | .congo_b, st => st.sound_state1
  | .congo_c, st => st.sound_state2

/-- The `(bit, channel)` pairs of the `if ((diff & mask) ...)` statements of each
handler: the bit number of `mask` and the channel of the guarded call. -/
def Handler.triggerBits : Handler → List (Nat × Nat)
  | .zaxxon_a => [(2, 10), (3, 11), (4, 0), (5, 1), (6, 2), (7, 3)]
  | .zaxxon_b => [(4, 4), (5, 5), (7, 6)]
  | .zaxxon_c => [(0, 7), (2, 8), (3, 9)]
  | .congo_b => [(1, 0)]
  | .congo_c => [(0, 1), (1, 2), (2, 3), (3, 4)]

/-- Successive writes through one handler, each with the `sample_playing`
answers in force at that write; returns the final state and the calls of each
write, in order. -/
def Handler.writes (h : Handler) : zaxxon_state → List ((Nat → Bool) × Nat) →
    zaxxon_state × List (List SampleCall)
  | st, [] => (st, [])
  | st, w :: ws =>
    let r := h.run st w.1 w.2
    let rest := Handler.writes h r.1 ws
    (rest.1, r.2 :: rest.2)

/-! ## Vocabulary of the properties -/

/-- Channel argument of a call. -/
def SampleCall.channel : SampleCall → Nat
  | .sample_set_volume ch _ => ch
  | .sample_start ch _ _ => ch
  | .sample_stop ch => ch
  | .sample_playing ch => ch

/-- The call is a `sample_start`. -/
def SampleCall.isStart : SampleCall → Bool
  | .sample_start _ _ _ => true
  | _ => false

/-- The call is a `sample_stop`. -/
def SampleCall.isStop : SampleCall → Bool
  | .sample_stop _ => true
  | _ => false

/-- The call is a `sample_set_volume`. -/
def SampleCall.isSetVolume : SampleCall → Bool
  | .sample_set_volume _ _ => true
  | _ => false

/-- The `sample_start` and `sample_stop` calls of a trace, in order. -/
def triggers (calls : List SampleCall) : List SampleCall :=
  calls.filter (fun c => c.isStart || c.isStop)

/-- The `sample_start` and `sample_stop` calls of a trace on channel `ch`, in order. -/
def triggersOn (ch : Nat) (calls : List SampleCall) : List SampleCall :=
  calls.filter (fun c => (c.isStart || c.isStop) && c.channel == ch)

/-- Bit `k` went 1 -> 0 between the stored byte `old` and the written byte `new`. -/
def fell (old new k : Nat) : Bool := old.testBit k && !new.testBit k

/-- Bit `k` went 0 -> 1 between the stored byte `old` and the written byte `new`. -/
def rose (old new k : Nat) : Bool := !old.testBit k && new.testBit k

/-- The list is made of starts and stops that alternate: of two adjacent calls
one is a `sample_start` and the other a `sample_stop`. -/
def alternates : List SampleCall → Bool
  | a :: b :: rest =>
    ((a.isStart && b.isStop) || (a.isStop && b.isStart)) && alternates (b :: rest)
  | _ => true

/-- The call's channel is below `channels`; for a `sample_start`, the sample
index is also below `nsamples` and equal to the channel. -/
def SampleCall.wellIndexed (channels nsamples : Nat) : SampleCall → Bool
  | .sample_start ch s _ => decide (ch < channels) && decide (s < nsamples) && s == ch
  | .sample_set_volume ch _ => decide (ch < channels)
  | .sample_stop ch => decide (ch < channels)
  | .sample_playing ch => decide (ch < channels)

/-! ## Sample tables, ports and mixed sequences of writes -/

/-- The C type `samples_interface` (`sound/samples.h`): number of channels and
the sample names. -/
structure samples_interface where
  channels : Nat
  samplenames : List String

/-- Source `zaxxon_sample_names`, lines 74-90: the twelve wave files, index 0 to
11 as numbered in the source comments (the leading set name and the
terminating 0 of the C array are not samples). -/
def zaxxon_sample_names : List String :=
  ["03.wav", "02.wav", "01.wav", "00.wav", "11.wav", "10.wav", "08.wav", "23.wav", "21.wav",
   "20.wav", "05.wav", "04.wav"]

/-- Source `zaxxon_samples_interface`, lines 93-97. -/
def zaxxon_samples_interface : samples_interface :=
  { channels := 12, samplenames := zaxxon_sample_names }

/-- Source `congo_sample_names`, lines 193-202: the five wave files, index 0 to 4
(the leading set name and the terminating 0 of the C array are not samples). -/
def congo_sample_names : List String :=
  ["gorilla.wav", "bass.wav", "congal.wav", "congah.wav", "rim.wav"]

/-- Source `congo_samples_interface`, lines 205-209. -/
def congo_samples_interface : samples_interface :=
  { channels := 5, samplenames := congo_sample_names }

/-- The array access `state->sound_state[i]` for `i` in 0..2. -/
def zaxxon_state.sound_state (st : zaxxon_state) : Nat → Nat
  | 0 => st.sound_state0
  | 1 => st.sound_state1
  | _ => st.sound_state2

/-- Index into `sound_state` used by the handler: 0 for port A, 1 for port B, 2
for port C. -/
def Handler.port : Handler → Nat
  | .zaxxon_a => 0
  | .zaxxon_b => 1
  | .zaxxon_c => 2
  | .congo_b => 1
  | .congo_c => 2

/-- The local `UINT8 diff = data ^ state->sound_state[i];` computed first by each
handler (lines 118, 154, 172, 230, 244). -/
def Handler.diff (h : Handler) (state : zaxxon_state) (data : Nat) : Nat :=
  (data ^^^ h.stored state) % 256

/-- The bits of `diff` for which the handler has no `if ((diff & mask) ...)`
statement. -/
def Handler.untestedBits : Handler → List Nat
  | .zaxxon_a => [0, 1]
  | .zaxxon_b => [0, 1, 2, 3, 6]
  | .zaxxon_c => [1, 4, 5, 6, 7]
  | .congo_b => [0, 2, 3, 4, 5, 6, 7]
  | .congo_c => [4, 5, 6, 7]

/-- Successive writes, each through its own handler and with its own
`sample_playing` answers; returns the final state and the calls of each write,
in order. -/
def run_writes : zaxxon_state → List (Handler × (Nat → Bool) × Nat) →
    zaxxon_state × List (List SampleCall)
  | st, [] => (st, [])
  | st, w :: ws =>
    let r := w.1.run st w.2.1 w.2.2
    let rest := run_writes r.1 ws
    (rest.1, r.2 :: rest.2)

/-- The most recent byte written to port `i` by a sequence of writes, or `init`
when the sequence has no write to that port. -/
def lastWritten (i : Nat) (init : Nat) (ws : List (Handler × (Nat → Bool) × Nat)) : Nat :=
  ws.foldl (fun acc w => if w.1.port = i then w.2.2 else acc) init

/-! ## Bit-level lemmas -/

theorem truthy_and_two_pow (x k : Nat) : truthy (x &&& 2 ^ k) = x.testBit k := by
  rw [Nat.and_two_pow]
  cases x.testBit k <;> simp [truthy]

theorem testBit_diff (d s k : Nat) (hk : k < 8) :
    ((d ^^^ s) % 256).testBit k = (d.testBit k != s.testBit k) := by
  rw [show (256 : Nat) = 2 ^ 8 from rfl, Nat.testBit_mod_two_pow]
  simp [hk]

/-- The C tests `data & mask` of the handlers, read as bit tests. -/
theorem mask_tests (d : Nat) :
    truthy (d &&& 0x01) = d.testBit 0 ∧ truthy (d &&& 0x02) = d.testBit 1 ∧
    truthy (d &&& 0x04) = d.testBit 2 ∧ truthy (d &&& 0x08) = d.testBit 3 ∧
    truthy (d &&& 0x10) = d.testBit 4 ∧ truthy (d &&& 0x20) = d.testBit 5 ∧
    truthy (d &&& 0x40) = d.testBit 6 ∧ truthy (d &&& 0x80) = d.testBit 7 :=
  ⟨truthy_and_two_pow d 0, truthy_and_two_pow d 1, truthy_and_two_pow d 2,
   truthy_and_two_pow d 3, truthy_and_two_pow d 4, truthy_and_two_pow d 5,
   truthy_and_two_pow d 6, truthy_and_two_pow d 7⟩

/-- Bits 0-7 of the `UINT8` value `diff = data ^ sound_state[i]`, read as bit
comparisons. -/
theorem diff_bit_tests (d s : Nat) :
    ((d ^^^ s) % 256).testBit 0 = (d.testBit 0 != s.testBit 0) ∧
    ((d ^^^ s) % 256).testBit 1 = (d.testBit 1 != s.testBit 1) ∧
    ((d ^^^ s) % 256).testBit 2 = (d.testBit 2 != s.testBit 2) ∧
    ((d ^^^ s) % 256).testBit 3 = (d.testBit 3 != s.testBit 3) ∧
    ((d ^^^ s) % 256).testBit 4 = (d.testBit 4 != s.testBit 4) ∧
    ((d ^^^ s) % 256).testBit 5 = (d.testBit 5 != s.testBit 5) ∧
    ((d ^^^ s) % 256).testBit 6 = (d.testBit 6 != s.testBit 6) ∧
    ((d ^^^ s) % 256).testBit 7 = (d.testBit 7 != s.testBit 7) :=
  ⟨testBit_diff d s 0 (by decide), testBit_diff d s 1 (by decide),
   testBit_diff d s 2 (by decide), testBit_diff d s 3 (by decide),
   testBit_diff d s 4 (by decide), testBit_diff d s 5 (by decide),
   testBit_diff d s 6 (by decide), testBit_diff d s 7 (by decide)⟩

theorem filter_when_ (p : SampleCall → Bool) (c : Bool) (l : List SampleCall) :
    (when_ c l).filter p = when_ c (l.filter p) := by
  cases c <;> simp [when_]

theorem when_nil (c : Bool) : when_ c [] = [] := by
  cases c <;> rfl

theorem filter_when_not_playing (q : SampleCall → Bool) (c : Bool) (p : Nat → Bool) (ch : Nat)
    (l : List SampleCall) :
    (when_not_playing c p ch l).filter q =
      when_ c ((if q (SampleCall.sample_playing ch) then [SampleCall.sample_playing ch] else []) ++
        when_ (!p ch) (l.filter q)) := by
  cases c <;> cases hp : p ch <;> cases hq : q (SampleCall.sample_playing ch) <;>
    simp [when_not_playing, when_, hp, hq]

theorem mem_when_ (x : SampleCall) (c : Bool) (l : List SampleCall) :
    x ∈ when_ c l ↔ c = true ∧ x ∈ l := by
  cases c <;> simp [when_]

theorem mem_when_not_playing (x : SampleCall) (c : Bool) (p : Nat → Bool) (ch : Nat)
    (l : List SampleCall) :
    x ∈ when_not_playing c p ch l ↔
      c = true ∧ (x = SampleCall.sample_playing ch ∨ (p ch = false ∧ x ∈ l)) := by
  cases c <;> cases hp : p ch <;> simp [when_not_playing, hp]

/-! ## Edge lemmas -/

theorem falling_test (d s k : Nat) :
    ((d.testBit k != s.testBit k) && !d.testBit k) = fell s d k := by
  unfold fell
  cases d.testBit k <;> cases s.testBit k <;> rfl

theorem rising_test (d s k : Nat) :
    ((d.testBit k != s.testBit k) && d.testBit k) = rose s d k := by
  unfold rose
  cases d.testBit k <;> cases s.testBit k <;> rfl

theorem fell_self (d k : Nat) : fell d d k = false := by
  unfold fell
  cases d.testBit k <;> rfl

theorem rose_self (d k : Nat) : rose d d k = false := by
  unfold rose
  cases d.testBit k <;> rfl

theorem fell_of_same (s d k : Nat) (h : d.testBit k = s.testBit k) : fell s d k = false := by
  unfold fell
  rw [h]
  cases s.testBit k <;> rfl

theorem rose_of_same (s d k : Nat) (h : d.testBit k = s.testBit k) : rose s d k = false := by
  unfold rose
  rw [h]
  cases s.testBit k <;> rfl

theorem rose_of_fell (s d k : Nat) (h : fell s d k = true) : rose s d k = false := by
  unfold fell at h
  unfold rose
  cases hs : s.testBit k <;> simp [hs] at h ⊢

/-- A start/stop pair of statements on one bit makes at most one call. -/
theorem toggle_calls (s d k : Nat) (x y : SampleCall) :
    when_ (fell s d k) [x] ++ when_ (rose s d k) [y] =
      if fell s d k then [x] else if rose s d k then [y] else [] := by
  cases hf : fell s d k
  · cases hr : rose s d k <;> simp [when_]
  · simp [when_, rose_of_fell s d k hf]

theorem oneshot_calls (c : Bool) (x : SampleCall) :
    when_ c [x] = if c then [x] else [] := rfl

/-! ## The calls of each handler, by edge -/

theorem zaxxon_sound_a_w_calls (st : zaxxon_state) (p : Nat → Bool) (d : Nat) :
    (zaxxon_sound_a_w st p d).2 =
      [SampleCall.sample_set_volume 10 (to_float (double_add (to_double 0.5)
          (double_mul (to_double 0.157) ((d &&& 0x03 : Nat) : ℚ))))] ++
      [SampleCall.sample_set_volume 11 (to_float (double_add (to_double 0.5)
          (double_mul (to_double 0.157) ((d &&& 0x03 : Nat) : ℚ))))] ++
      when_ (fell st.sound_state0 d 2) [SampleCall.sample_start 10 10 true] ++
      when_ (rose st.sound_state0 d 2) [SampleCall.sample_stop 10] ++
      when_ (fell st.sound_state0 d 3) [SampleCall.sample_start 11 11 true] ++
      when_ (rose st.sound_state0 d 3) [SampleCall.sample_stop 11] ++
      when_ (fell st.sound_state0 d 4) [SampleCall.sample_start 0 0 true] ++
      when_ (rose st.sound_state0 d 4) [SampleCall.sample_stop 0] ++
      when_ (fell st.sound_state0 d 5) [SampleCall.sample_start 1 1 false] ++
      when_ (fell st.sound_state0 d 6) [SampleCall.sample_start 2 2 true] ++
      when_ (rose st.sound_state0 d 6) [SampleCall.sample_stop 2] ++
      when_ (fell st.sound_state0 d 7) [SampleCall.sample_start 3 3 true] ++
      when_ (rose st.sound_state0 d 7) [SampleCall.sample_stop 3] := by
  simp only [zaxxon_sound_a_w, mask_tests, diff_bit_tests, falling_test, rising_test]

theorem zaxxon_sound_b_w_calls (st : zaxxon_state) (p : Nat → Bool) (d : Nat) :
    (zaxxon_sound_b_w st p d).2 =
      when_ (fell st.sound_state1 d 4) [SampleCall.sample_start 4 4 false] ++
      when_not_playing (fell st.sound_state1 d 5) p 5 [SampleCall.sample_start 5 5 false] ++
      when_ (fell st.sound_state1 d 7) [SampleCall.sample_start 6 6 false] := by
  simp only [zaxxon_sound_b_w, mask_tests, diff_bit_tests, falling_test, rising_test]

theorem zaxxon_sound_c_w_calls (st : zaxxon_state) (p : Nat → Bool) (d : Nat) :
    (zaxxon_sound_c_w st p d).2 =
      when_ (fell st.sound_state2 d 0) [SampleCall.sample_start 7 7 false] ++
      when_ (fell st.sound_state2 d 2) [SampleCall.sample_start 8 8 false] ++
      when_not_playing (fell st.sound_state2 d 3) p 9 [SampleCall.sample_start 9 9 false] := by
  simp only [zaxxon_sound_c_w, mask_tests, diff_bit_tests, falling_test, rising_test]

theorem congo_sound_b_w_calls (st : zaxxon_state) (p : Nat → Bool) (d : Nat) :
    (congo_sound_b_w st p d).2 =
      when_not_playing (fell st.sound_state1 d 1) p 0 [SampleCall.sample_start 0 0 false] := by
  simp only [congo_sound_b_w, mask_tests, diff_bit_tests, falling_test, rising_test]

theorem congo_sound_c_w_calls (st : zaxxon_state) (p : Nat → Bool) (d : Nat) :
    (congo_sound_c_w st p d).2 =
      when_ (fell st.sound_state2 d 0) [SampleCall.sample_start 1 1 false] ++
      when_ (rose st.sound_state2 d 0) [SampleCall.sample_stop 1] ++
      when_ (fell st.sound_state2 d 1) [SampleCall.sample_start 2 2 false] ++
      when_ (rose st.sound_state2 d 1) [SampleCall.sample_stop 2] ++
      when_ (fell st.sound_state2 d 2) [SampleCall.sample_start 3 3 false] ++
      when_ (rose st.sound_state2 d 2) [SampleCall.sample_stop 3] ++
      when_ (fell st.sound_state2 d 3) [SampleCall.sample_start 4 4 false] ++
      when_ (rose st.sound_state2 d 3) [SampleCall.sample_stop 4] := by
  simp only [congo_sound_c_w, mask_tests, diff_bit_tests, falling_test, rising_test]

/-! ## The volume passed by `zaxxon_sound_a_w` -/

theorem and_three (d : Nat) : d &&& 0x03 = d % 4 :=
  Nat.and_pow_two_sub_one_eq_mod d 2

theorem double_0_5 : to_double 0.5 = 1 / 2 := by
  decide!

theorem double_0_157 : to_double 0.157 = 5656521131977343 / 36028797018963968 := by
  decide!

/-- The four `float` values of `0.5 + 0.157 * (data & 0x03)`. -/
theorem volume_values (d : Nat) :
    to_float (double_add (to_double 0.5)
      (double_mul (to_double 0.157) ((d &&& 0x03 : Nat) : ℚ))) =
      if d % 4 = 0 then 1 / 2 else if d % 4 = 1 then 11022631 / 16777216
      else if d % 4 = 2 then 6828327 / 8388608 else 16290677 / 16777216 := by
  rw [and_three, double_0_5, double_0_157]
  have h4 : d % 4 < 4 := Nat.mod_lt _ (by decide)
  generalize d % 4 = r at h4
  interval_cases r
  · rw [show double_mul (5656521131977343 / 36028797018963968) ((0 : Nat) : ℚ) = 0 by decide!,
      show double_add (1 / 2) 0 = 1 / 2 by decide!]
    decide!
  · rw [show double_mul (5656521131977343 / 36028797018963968) ((1 : Nat) : ℚ) =
        5656521131977343 / 36028797018963968 by decide!,
      show double_add (1 / 2) (5656521131977343 / 36028797018963968) =
        184929059698901 / 281474976710656 by decide!]
    decide!
  · rw [show double_mul (5656521131977343 / 36028797018963968) ((2 : Nat) : ℚ) =
        5656521131977343 / 18014398509481984 by decide!,
      show double_add (1 / 2) (5656521131977343 / 18014398509481984) =
        114560315521237 / 140737488355328 by decide!]
    decide!
  · rw [show double_mul (5656521131977343 / 36028797018963968) ((3 : Nat) : ℚ) =
        4242390848983007 / 9007199254740992 by decide!,
      show double_add (1 / 2) (4242390848983007 / 9007199254740992) =
        8745990476353503 / 9007199254740992 by decide!]
    decide!

/-! ## Stored bytes -/

theorem run_stored (h : Handler) (st : zaxxon_state) (p : Nat → Bool) (d : Nat) :
    h.stored (h.run st p d).1 = d := by
  cases h <;> rfl

theorem run_calls_of_same (h : Handler) (st : zaxxon_state) (p : Nat → Bool) (d : Nat)
    (hs : h.stored st = d) :
    (h.run st p d).2 =
      if h = Handler.zaxxon_a then
        [SampleCall.sample_set_volume 10 (to_float (double_add (to_double 0.5)
            (double_mul (to_double 0.157) ((d &&& 0x03 : Nat) : ℚ)))),
         SampleCall.sample_set_volume 11 (to_float (double_add (to_double 0.5)
             (double_mul (to_double 0.157) ((d &&& 0x03 : Nat) : ℚ))))]
      else [] := by
  cases h <;> simp only [Handler.stored] at hs
  · simp [Handler.run, zaxxon_sound_a_w_calls, hs, fell_self, rose_self, when_]
  · simp [Handler.run, zaxxon_sound_b_w_calls, hs, fell_self, when_, when_not_playing]
  · simp [Handler.run, zaxxon_sound_c_w_calls, hs, fell_self, when_, when_not_playing]
  · simp [Handler.run, congo_sound_b_w_calls, hs, fell_self, when_not_playing]
  · simp [Handler.run, congo_sound_c_w_calls, hs, fell_self, rose_self, when_]

theorem run_state_of_same (h : Handler) (st : zaxxon_state) (p : Nat → Bool) (d : Nat)
    (hs : h.stored st = d) : (h.run st p d).1 = st := by
  cases h <;> simp only [Handler.stored] at hs <;> subst hs <;> rfl

/-! ## C1: repeated writes -/

/-- C1, as stated, fails for `zaxxon_sound_a_w`: from the all-zero state, the
second of two successive writes of the byte 0 still issues the two
`sample_set_volume` calls (volume 0.5 on channels 10 and 11). -/
theorem repeated_write_sets_volume :
    (zaxxon_sound_a_w (zaxxon_sound_a_w ⟨0, 0, 0⟩ (fun _ => false) 0).1 (fun _ => false) 0).2 =
        [SampleCall.sample_set_volume 10 0.5, SampleCall.sample_set_volume 11 0.5] ∧
      ((zaxxon_sound_a_w (zaxxon_sound_a_w ⟨0, 0, 0⟩ (fun _ => false) 0).1
        (fun _ => false) 0).2.filter SampleCall.isSetVolume) ≠ [] := by
  decide!

/-- C1 (amended): for each of the five handlers, every state, every pair of
is-playing answers and every byte `b`, the second of two successive writes of
`b` leaves the three stored bytes unchanged and issues no `sample_start`, no
`sample_stop` and no `sample_playing` query; its whole list of calls is empty,
except for `zaxxon_sound_a_w`, where it is exactly the two `sample_set_volume`
calls on channels 10 and 11 that the handler makes on every write. -/
theorem repeated_write_idempotent (h : Handler) (st : zaxxon_state) (p1 p2 : Nat → Bool)
    (b : Nat) :
    (h.run (h.run st p1 b).1 p2 b).1 = (h.run st p1 b).1 ∧
    triggers (h.run (h.run st p1 b).1 p2 b).2 = [] ∧
    (h.run (h.run st p1 b).1 p2 b).2 =
      if h = Handler.zaxxon_a then
        [SampleCall.sample_set_volume 10 (to_float (double_add (to_double 0.5)
            (double_mul (to_double 0.157) ((b &&& 0x03 : Nat) : ℚ)))),
         SampleCall.sample_set_volume 11 (to_float (double_add (to_double 0.5)
             (double_mul (to_double 0.157) ((b &&& 0x03 : Nat) : ℚ))))]
      else [] := by
  have hs := run_stored h st p1 b
  refine ⟨run_state_of_same h _ p2 b hs, ?_, run_calls_of_same h _ p2 b hs⟩
  rw [run_calls_of_same h _ p2 b hs]
  split <;> simp [triggers, SampleCall.isStart, SampleCall.isStop]

/-! ## Calls on one channel -/

theorem triggersOn_of_same (h : Handler) (st : zaxxon_state) (p : Nat → Bool) (d : Nat)
    (k ch : Nat) (hmem : (k, ch) ∈ h.triggerBits)
    (hsame : d.testBit k = (h.stored st).testBit k) :
    triggersOn ch (h.run st p d).2 = [] := by
  have hf := fell_of_same _ _ _ hsame
  have hr := rose_of_same _ _ _ hsame
  cases h <;> simp only [Handler.triggerBits, List.mem_cons, List.mem_singleton, Prod.mk.injEq,
      List.mem_nil_iff, or_false] at hmem <;> simp only [Handler.stored] at hf hr
  · rw [Handler.run, zaxxon_sound_a_w_calls]
    rcases hmem with ⟨rfl, rfl⟩ | ⟨rfl, rfl⟩ | ⟨rfl, rfl⟩ | ⟨rfl, rfl⟩ | ⟨rfl, rfl⟩ | ⟨rfl, rfl⟩ <;>
      simp +decide [triggersOn, filter_when_, when_nil, hf, hr, when_, SampleCall.isStart,
        SampleCall.isStop, SampleCall.channel]
  · rw [Handler.run, zaxxon_sound_b_w_calls]
    rcases hmem with ⟨rfl, rfl⟩ | ⟨rfl, rfl⟩ | ⟨rfl, rfl⟩ <;>
      simp +decide [triggersOn, filter_when_, filter_when_not_playing, when_nil, hf, when_,
        SampleCall.isStart, SampleCall.isStop, SampleCall.channel]
  · rw [Handler.run, zaxxon_sound_c_w_calls]
    rcases hmem with ⟨rfl, rfl⟩ | ⟨rfl, rfl⟩ | ⟨rfl, rfl⟩ <;>
      simp +decide [triggersOn, filter_when_, filter_when_not_playing, when_nil, hf, when_,
        SampleCall.isStart, SampleCall.isStop, SampleCall.channel]
  · rw [Handler.run, congo_sound_b_w_calls]
    rcases hmem with ⟨rfl, rfl⟩
    simp +decide [triggersOn, filter_when_, filter_when_not_playing, when_nil, hf, when_,
      SampleCall.isStart, SampleCall.isStop, SampleCall.channel]
  · rw [Handler.run, congo_sound_c_w_calls]
    rcases hmem with ⟨rfl, rfl⟩ | ⟨rfl, rfl⟩ | ⟨rfl, rfl⟩ | ⟨rfl, rfl⟩ <;>
      simp +decide [triggersOn, filter_when_, when_nil, hf, hr, when_, SampleCall.isStart,
        SampleCall.isStop, SampleCall.channel]

theorem zaxxon_a_toggle (st : zaxxon_state) (p : Nat → Bool) (d k ch : Nat)
    (hmem : (k, ch) ∈ [(2, 10), (3, 11), (4, 0), (6, 2), (7, 3)]) :
    triggersOn ch (zaxxon_sound_a_w st p d).2 =
      if fell st.sound_state0 d k then [SampleCall.sample_start ch ch true]
      else if rose st.sound_state0 d k then [SampleCall.sample_stop ch] else [] := by
  simp only [List.mem_cons, List.mem_singleton, Prod.mk.injEq, List.mem_nil_iff, or_false] at hmem
  rw [zaxxon_sound_a_w_calls]
  rcases hmem with ⟨rfl, rfl⟩ | ⟨rfl, rfl⟩ | ⟨rfl, rfl⟩ | ⟨rfl, rfl⟩ | ⟨rfl, rfl⟩ <;>
    simp +decide only [triggersOn, List.filter_append, filter_when_, List.filter_cons, List.filter_nil,
      when_nil, SampleCall.isStart, SampleCall.isStop, SampleCall.channel, List.append_nil,
      List.nil_append, Bool.or_false, Bool.or_true, Bool.true_and, Bool.false_and, if_true, if_false,
      Bool.false_eq_true] <;>
    exact toggle_calls _ _ _ _ _

theorem congo_c_toggle (st : zaxxon_state) (p : Nat → Bool) (d k ch : Nat)
    (hmem : (k, ch) ∈ [(0, 1), (1, 2), (2, 3), (3, 4)]) :
    triggersOn ch (congo_sound_c_w st p d).2 =
      if fell st.sound_state2 d k then [SampleCall.sample_start ch ch false]
      else if rose st.sound_state2 d k then [SampleCall.sample_stop ch] else [] := by
  simp only [List.mem_cons, List.mem_singleton, Prod.mk.injEq, List.mem_nil_iff, or_false] at hmem
  rw [congo_sound_c_w_calls]
  rcases hmem with ⟨rfl, rfl⟩ | ⟨rfl, rfl⟩ | ⟨rfl, rfl⟩ | ⟨rfl, rfl⟩ <;>
    simp +decide only [triggersOn, List.filter_append, filter_when_, List.filter_cons, List.filter_nil,
      when_nil, SampleCall.isStart, SampleCall.isStop, SampleCall.channel, List.append_nil,
      List.nil_append, Bool.or_false, Bool.or_true, Bool.true_and, Bool.false_and, if_true, if_false,
      Bool.false_eq_true] <;>
    exact toggle_calls _ _ _ _ _

/-! ## Sequences of writes -/

theorem writes_append (h : Handler) (ws ws2 : List ((Nat → Bool) × Nat)) (st : zaxxon_state) :
    h.writes st (ws ++ ws2) =
      ((h.writes (h.writes st ws).1 ws2).1, (h.writes st ws).2 ++ (h.writes (h.writes st ws).1 ws2).2) := by
  induction ws generalizing st with
  | nil => simp [Handler.writes]
  | cons w ws ih => simp [Handler.writes, ih]

/-- Writes that keep bit `k` at its stored value make no start/stop call on the
bit's channel and keep the stored bit. -/
theorem quiet_writes (h : Handler) (k ch : Nat) (hmem : (k, ch) ∈ h.triggerBits)
    (ws : List ((Nat → Bool) × Nat)) (st : zaxxon_state)
    (hws : ∀ w ∈ ws, w.2.testBit k = (h.stored st).testBit k) :
    (h.writes st ws).2.map (triggersOn ch) = ws.map (fun _ => []) ∧
      (h.stored (h.writes st ws).1).testBit k = (h.stored st).testBit k := by
  induction ws generalizing st with
  | nil => simp [Handler.writes]
  | cons w ws ih =>
    have hw := hws w (List.mem_cons_self _ _)
    have hst : h.stored (h.run st w.1 w.2).1 = w.2 := run_stored h st w.1 w.2
    have ih2 := ih (h.run st w.1 w.2).1 (by
      intro v hv
      rw [hst, hw]
      exact hws v (List.mem_cons_of_mem _ hv))
    refine ⟨?_, ?_⟩
    · simp only [Handler.writes, List.map_cons, ih2.1, triggersOn_of_same h st w.1 w.2 k ch hmem hw]
    · simp only [Handler.writes]
      rw [ih2.2, hst, hw]

/-! ## C2: no trigger without an edge -/

/-- C2: for every handler and every `(bit, channel)` pair it tests, a write whose
byte has the same value in that bit as the stored previous byte of the handler's
port issues no `sample_start` and no `sample_stop` on that channel, whatever the
other bits and the is-playing answers are. -/
theorem no_trigger_without_edge (h : Handler) (st : zaxxon_state) (p : Nat → Bool) (d : Nat)
    (k ch : Nat) (hmem : (k, ch) ∈ h.triggerBits)
    (hsame : d.testBit k = (h.stored st).testBit k) :
    triggersOn ch (h.run st p d).2 = [] :=
  triggersOn_of_same h st p d k ch hmem hsame

/-- Witness for C2: stored port A byte 0xFB, written byte 0x03 (bit 2 is 0 in
both, every other trigger bit falls): nothing on channel 10. -/
theorem no_trigger_without_edge_witness :
    triggersOn 10 (zaxxon_sound_a_w ⟨0xFB, 0, 0⟩ (fun _ => false) 0x03).2 = [] :=
  no_trigger_without_edge Handler.zaxxon_a ⟨0xFB, 0, 0⟩ (fun _ => false) 0x03 2 10
    (by simp [Handler.triggerBits]) (by decide)

/-! ## C3: ship-combat port A toggle bits -/

/-- C3: for each pair (bit 2, channel 10), (bit 3, channel 11), (bit 4, channel 0),
(bit 6, channel 2), (bit 7, channel 3) and every stored byte and new byte, the
start/stop calls of `zaxxon_sound_a_w` on that channel are exactly one looping
start (sample = channel, loop = TRUE) when the bit went 1 -> 0, exactly one stop
when it went 0 -> 1, and none when it is unchanged.  Hence a write that flips the
bit 1 -> 0, followed later (after writes that leave the bit at 0) by a write
that flips it 0 -> 1, produces exactly the start, then exactly the stop. -/
theorem zaxxon_a_toggle_bits (k ch : Nat)
    (hmem : (k, ch) ∈ [(2, 10), (3, 11), (4, 0), (6, 2), (7, 3)]) (st : zaxxon_state) :
    (∀ (p : Nat → Bool) (d : Nat),
      triggersOn ch (zaxxon_sound_a_w st p d).2 =
        if fell st.sound_state0 d k then [SampleCall.sample_start ch ch true]
        else if rose st.sound_state0 d k then [SampleCall.sample_stop ch] else []) ∧
    (∀ (p1 p2 : Nat → Bool) (d1 d2 : Nat) (mid : List ((Nat → Bool) × Nat)),
      st.sound_state0.testBit k = true → d1.testBit k = false →
      (∀ w ∈ mid, w.2.testBit k = false) → d2.testBit k = true →
      (Handler.zaxxon_a.writes st ((p1, d1) :: mid ++ [(p2, d2)])).2.map (triggersOn ch) =
        [SampleCall.sample_start ch ch true] :: mid.map (fun _ => []) ++
          [[SampleCall.sample_stop ch]]) := by
  refine ⟨fun p d => zaxxon_a_toggle st p d k ch hmem, ?_⟩
  intro p1 p2 d1 d2 mid hst hd1 hmid hd2
  have hrule : (k, ch) ∈ Handler.zaxxon_a.triggerBits := by
    simp only [List.mem_cons, List.mem_singleton, Prod.mk.injEq, List.mem_nil_iff, or_false] at hmem
    rcases hmem with ⟨rfl, rfl⟩ | ⟨rfl, rfl⟩ | ⟨rfl, rfl⟩ | ⟨rfl, rfl⟩ | ⟨rfl, rfl⟩ <;>
      simp [Handler.triggerBits]
  have hq := quiet_writes Handler.zaxxon_a k ch hrule mid (zaxxon_sound_a_w st p1 d1).1 (by
    intro w hw
    rw [hmid w hw]
    exact hd1.symm)
  have hlast : ((Handler.zaxxon_a.writes (zaxxon_sound_a_w st p1 d1).1 mid).1).sound_state0.testBit k
      = false := by
    have := hq.2
    simp only [Handler.stored] at this
    rw [this]
    exact hd1
  rw [List.cons_append, Handler.writes, writes_append]
  simp only [Handler.run, List.map_cons, List.map_append, hq.1, Handler.writes, List.map_nil]
  rw [zaxxon_a_toggle st p1 d1 k ch hmem, zaxxon_a_toggle _ p2 d2 k ch hmem]
  simp [fell, rose, hst, hd1, hd2, hlast]

/-- Witness for C3: bit 7 / channel 3 from stored port A byte 0xFF; writing 0x7F
starts the battleship loop, 0x3F leaves it alone, 0xFF stops it. -/
theorem zaxxon_a_toggle_bits_witness :
    triggersOn 3 (zaxxon_sound_a_w ⟨0xFF, 0, 0⟩ (fun _ => false) 0x7F).2 =
        [SampleCall.sample_start 3 3 true] ∧
      (Handler.zaxxon_a.writes ⟨0xFF, 0, 0⟩
        [(fun _ => false, 0x7F), (fun _ => false, 0x3F), (fun _ => false, 0xFF)]).2.map
          (triggersOn 3) =
        [[SampleCall.sample_start 3 3 true], [], [SampleCall.sample_stop 3]] :=
  ⟨((zaxxon_a_toggle_bits 7 3 (by simp) ⟨0xFF, 0, 0⟩).1 (fun _ => false) 0x7F).trans
      (by decide),
    (zaxxon_a_toggle_bits 7 3 (by simp) ⟨0xFF, 0, 0⟩).2 (fun _ => false) (fun _ => false)
      0x7F 0xFF [(fun _ => false, 0x3F)] (by decide) (by decide) (by simp +decide) (by decide)⟩

/-! ## C4: percussion port C drum bits -/

/-- C4, as stated, fails: from stored port C byte 0x01, writing 0x00 makes bit 0
go 1 -> 0 and `congo_sound_c_w` starts the bass drum with loop = FALSE; no
looping start is issued. -/
theorem congo_c_start_is_not_looping :
    fell 0x01 0x00 0 = true ∧
      (congo_sound_c_w ⟨0, 0, 0x01⟩ (fun _ => false) 0x00).2 =
        [SampleCall.sample_start 1 1 false] ∧
      SampleCall.sample_start 1 1 true ∉ (congo_sound_c_w ⟨0, 0, 0x01⟩ (fun _ => false) 0x00).2 := by
  decide

/-- C4 (amended): for each pair (bit 0, channel 1 bass drum), (bit 1, channel 2 low
conga), (bit 2, channel 3 high conga), (bit 3, channel 4 rim) and every stored
byte and new byte, the start/stop calls of `congo_sound_c_w` on that channel are
exactly one non-looping start (sample = channel, loop = FALSE) when the bit went
1 -> 0, exactly one stop when it went 0 -> 1, and none otherwise. -/
theorem congo_c_drum_bits (k ch : Nat) (hmem : (k, ch) ∈ [(0, 1), (1, 2), (2, 3), (3, 4)])
    (st : zaxxon_state) (p : Nat → Bool) (d : Nat) :
    triggersOn ch (congo_sound_c_w st p d).2 =
      if fell st.sound_state2 d k then [SampleCall.sample_start ch ch false]
      else if rose st.sound_state2 d k then [SampleCall.sample_stop ch] else [] :=
  congo_c_toggle st p d k ch hmem

/-- Witness for C4 (amended): the rim bit (bit 3, channel 4) rising from stored
byte 0x00 to written byte 0x08 stops channel 4. -/
theorem congo_c_drum_bits_witness :
    triggersOn 4 (congo_sound_c_w ⟨0, 0, 0x00⟩ (fun _ => false) 0x08).2 =
      [SampleCall.sample_stop 4] :=
  (congo_c_drum_bits 3 4 (by simp) ⟨0, 0, 0x00⟩ (fun _ => false) 0x08).trans (by decide)

/-! ## C5: guard suppression -/

/-- C5: for each guarded rule (`zaxxon_sound_b_w` bit 5 / channel 5,
`zaxxon_sound_c_w` bit 3 / channel 9, `congo_sound_b_w` bit 1 / channel 0), on a
write where the bit went 1 -> 0 the handler queries `sample_playing` for that
channel, and its start/stop calls on the channel are exactly one non-looping
start when the answer is false and none when the answer is true. -/
theorem guard_suppression (h : Handler) (k ch : Nat)
    (hmem : (h, k, ch) ∈
      [(Handler.zaxxon_b, 5, 5), (Handler.zaxxon_c, 3, 9), (Handler.congo_b, 1, 0)])
    (st : zaxxon_state) (p : Nat → Bool) (d : Nat) (hf : fell (h.stored st) d k = true) :
    SampleCall.sample_playing ch ∈ (h.run st p d).2 ∧
      triggersOn ch (h.run st p d).2 =
        if p ch then [] else [SampleCall.sample_start ch ch false] := by
  simp only [List.mem_cons, List.mem_singleton, Prod.mk.injEq, List.mem_nil_iff, or_false] at hmem
  rcases hmem with ⟨rfl, rfl, rfl⟩ | ⟨rfl, rfl, rfl⟩ | ⟨rfl, rfl, rfl⟩ <;>
    simp only [Handler.stored] at hf
  · rw [Handler.run, zaxxon_sound_b_w_calls]
    refine ⟨by simp [mem_when_, mem_when_not_playing, hf], ?_⟩
    simp +decide only [triggersOn, List.filter_append, filter_when_, filter_when_not_playing,
      List.filter_cons, List.filter_nil, when_nil, SampleCall.isStart, SampleCall.isStop,
      SampleCall.channel, List.append_nil, List.nil_append, Bool.or_false, Bool.or_true,
      Bool.true_and, Bool.false_and, if_true, if_false, Bool.false_eq_true]
    cases hp : p 5 <;> simp [when_, hf]
  · rw [Handler.run, zaxxon_sound_c_w_calls]
    refine ⟨by simp [mem_when_, mem_when_not_playing, hf], ?_⟩
    simp +decide only [triggersOn, List.filter_append, filter_when_, filter_when_not_playing,
      List.filter_cons, List.filter_nil, when_nil, SampleCall.isStart, SampleCall.isStop,
      SampleCall.channel, List.append_nil, List.nil_append, Bool.or_false, Bool.or_true,
      Bool.true_and, Bool.false_and, if_true, if_false, Bool.false_eq_true]
    cases hp : p 9 <;> simp [when_, hf]
  · rw [Handler.run, congo_sound_b_w_calls]
    refine ⟨by simp [mem_when_, mem_when_not_playing, hf], ?_⟩
    simp +decide only [triggersOn, List.filter_append, filter_when_, filter_when_not_playing,
      List.filter_cons, List.filter_nil, when_nil, SampleCall.isStart, SampleCall.isStop,
      SampleCall.channel, List.append_nil, List.nil_append, Bool.or_false, Bool.or_true,
      Bool.true_and, Bool.false_and, if_true, if_false, Bool.false_eq_true]
    cases hp : p 0 <;> simp [when_, hf]

/-- Witness for C5: alarm 3 (port C bit 3, channel 9) falling from stored byte
0x08 to written byte 0x00, once while channel 9 is playing and once while it is
not. -/
theorem guard_suppression_witness :
    triggersOn 9 (zaxxon_sound_c_w ⟨0, 0, 0x08⟩ (fun _ => true) 0x00).2 = [] ∧
      triggersOn 9 (zaxxon_sound_c_w ⟨0, 0, 0x08⟩ (fun _ => false) 0x00).2 =
        [SampleCall.sample_start 9 9 false] :=
  ⟨(guard_suppression Handler.zaxxon_c 3 9 (by simp) ⟨0, 0, 0x08⟩ (fun _ => true) 0x00
      (by decide)).2,
    (guard_suppression Handler.zaxxon_c 3 9 (by simp) ⟨0, 0, 0x08⟩ (fun _ => false) 0x00
      (by decide)).2⟩

/-! ## C6: volume of the player-ship channels -/

theorem zaxxon_a_volume_calls (st : zaxxon_state) (p : Nat → Bool) (d : Nat) :
    (zaxxon_sound_a_w st p d).2.filter SampleCall.isSetVolume =
      [SampleCall.sample_set_volume 10
        (to_float (double_add (to_double 0.5)
          (double_mul (to_double 0.157) ((d &&& 0x03 : Nat) : ℚ)))),
       SampleCall.sample_set_volume 11
        (to_float (double_add (to_double 0.5)
          (double_mul (to_double 0.157) ((d &&& 0x03 : Nat) : ℚ))))] := by
  rw [zaxxon_sound_a_w_calls]
  simp +decide only [List.filter_append, filter_when_, List.filter_cons, List.filter_nil, when_nil,
    SampleCall.isSetVolume, List.append_nil, if_true, if_false, Bool.false_eq_true]
  rfl

/-- Distance of the passed `float` from the exact value of the expression. -/
theorem volume_error (d : Nat) :
    |to_float (double_add (to_double 0.5)
        (double_mul (to_double 0.157) ((d &&& 0x03 : Nat) : ℚ))) -
      (0.5 + 0.157 * ((d &&& 0x03 : Nat) : ℚ))| ≤ 1 / 2 ^ 25 := by
  rw [volume_values, and_three]
  have h4 : d % 4 < 4 := Nat.mod_lt _ (by decide)
  generalize d % 4 = r at h4
  interval_cases r <;> rw [abs_le] <;> constructor <;> norm_num

/-- C6, as stated, fails: the handler evaluates 0.5 + 0.157 * (data & 0x03) in
`double` and passes the result as a `float`.  With bits 0-1 equal to 0b01 (all
stored bytes 0, written byte 0x01) both calls pass 11022631/16777216, the
`float` nearest to 0.657, and not the exact value 0.657. -/
theorem volume_is_rounded :
    (zaxxon_sound_a_w ⟨0, 0, 0⟩ (fun _ => false) 0x01).2.filter SampleCall.isSetVolume =
        [SampleCall.sample_set_volume 10 (11022631 / 16777216),
         SampleCall.sample_set_volume 11 (11022631 / 16777216)] ∧
      (11022631 / 16777216 : ℚ) ≠ 0.657 ∧
      (0.5 + 0.157 * ((0x01 &&& 0x03 : Nat) : ℚ) : ℚ) = 0.657 ∧
      SampleCall.sample_set_volume 10 0.657 ∉
        (zaxxon_sound_a_w ⟨0, 0, 0⟩ (fun _ => false) 0x01).2 := by
  have hcalls := zaxxon_a_volume_calls ⟨0, 0, 0⟩ (fun _ => false) 0x01
  rw [volume_values] at hcalls
  norm_num at hcalls
  refine ⟨?_, by norm_num, ?_, ?_⟩
  · rw [hcalls]
  · rw [show (0x01 &&& 0x03 : Nat) = 1 from rfl]
    norm_num
  · intro hmem
    have hf : SampleCall.sample_set_volume 10 0.657 ∈
        (zaxxon_sound_a_w ⟨0, 0, 0⟩ (fun _ => false) 0x01).2.filter SampleCall.isSetVolume :=
      List.mem_filter.mpr ⟨hmem, rfl⟩
    rw [hcalls] at hf
    norm_num at hf

/-- C6 (amended): on every write through `zaxxon_sound_a_w`, whatever the stored
byte, the `sample_set_volume` calls are exactly one on channel 10 and one on
channel 11, both with the `float` value of the C expression
0.5 + 0.157 * (data & 0x03) (evaluated in `double`, converted to `float`); that
value is 0.5, 11022631/16777216, 6828327/8388608, 16290677/16777216 for bits 0-1
of the byte equal to 0b00, 0b01, 0b10, 0b11, and is within 2^-25 of the exact
0.5, 0.657, 0.814, 0.971. -/
theorem volume_continuity (st : zaxxon_state) (p : Nat → Bool) (d : Nat) :
    (zaxxon_sound_a_w st p d).2.filter SampleCall.isSetVolume =
        [SampleCall.sample_set_volume 10
          (to_float (double_add (to_double 0.5)
          (double_mul (to_double 0.157) ((d &&& 0x03 : Nat) : ℚ)))),
         SampleCall.sample_set_volume 11
          (to_float (double_add (to_double 0.5)
          (double_mul (to_double 0.157) ((d &&& 0x03 : Nat) : ℚ))))] ∧
      (zaxxon_sound_a_w st p d).2.filter SampleCall.isSetVolume =
        [SampleCall.sample_set_volume 10
           (if d % 4 = 0 then 0.5 else if d % 4 = 1 then 11022631 / 16777216
            else if d % 4 = 2 then 6828327 / 8388608 else 16290677 / 16777216),
         SampleCall.sample_set_volume 11
           (if d % 4 = 0 then 0.5 else if d % 4 = 1 then 11022631 / 16777216
            else if d % 4 = 2 then 6828327 / 8388608 else 16290677 / 16777216)] ∧
      |(if d % 4 = 0 then (0.5 : ℚ) else if d % 4 = 1 then 11022631 / 16777216
          else if d % 4 = 2 then 6828327 / 8388608 else 16290677 / 16777216) -
        (if d % 4 = 0 then 0.5 else if d % 4 = 1 then 0.657
          else if d % 4 = 2 then 0.814 else 0.971)| ≤ 1 / 2 ^ 25 ∧
      |to_float (double_add (to_double 0.5)
          (double_mul (to_double 0.157) ((d &&& 0x03 : Nat) : ℚ))) -
        (0.5 + 0.157 * ((d &&& 0x03 : Nat) : ℚ))| ≤ 1 / 2 ^ 25 := by
  have h4 : d % 4 < 4 := Nat.mod_lt _ (by decide)
  refine ⟨zaxxon_a_volume_calls st p d, ?_, ?_, volume_error d⟩
  · rw [zaxxon_a_volume_calls, volume_values]
    norm_num
  · generalize d % 4 = r at h4
    interval_cases r <;> rw [abs_le] <;> constructor <;> norm_num

/-! ## C7: independence across ports -/

/-- C7: a write through `zaxxon_sound_b_w` leaves `sound_state[0]` and
`sound_state[2]` unchanged, makes calls only on channels 4, 5 and 6, and makes
the same calls whatever the stored bytes of ports A and C are; likewise
`congo_sound_b_w`, whose calls are all on channel 0. -/
theorem port_b_independent (st : zaxxon_state) (p : Nat → Bool) (d a c : Nat) :
    ((zaxxon_sound_b_w st p d).1.sound_state0 = st.sound_state0 ∧
      (zaxxon_sound_b_w st p d).1.sound_state2 = st.sound_state2 ∧
      (∀ call ∈ (zaxxon_sound_b_w st p d).2, call.channel ∈ [4, 5, 6]) ∧
      (zaxxon_sound_b_w { st with sound_state0 := a, sound_state2 := c } p d).2 =
        (zaxxon_sound_b_w st p d).2) ∧
    ((congo_sound_b_w st p d).1.sound_state0 = st.sound_state0 ∧
      (congo_sound_b_w st p d).1.sound_state2 = st.sound_state2 ∧
      (∀ call ∈ (congo_sound_b_w st p d).2, call.channel = 0) ∧
      (congo_sound_b_w { st with sound_state0 := a, sound_state2 := c } p d).2 =
        (congo_sound_b_w st p d).2) := by
  refine ⟨⟨rfl, rfl, ?_, rfl⟩, ⟨rfl, rfl, ?_, rfl⟩⟩
  · intro call hcall
    rw [zaxxon_sound_b_w_calls] at hcall
    simp only [List.mem_append, mem_when_, mem_when_not_playing, List.mem_singleton] at hcall
    rcases hcall with (⟨_, rfl⟩ | ⟨_, rfl | ⟨_, rfl⟩⟩) | ⟨_, rfl⟩ <;> simp [SampleCall.channel]
  · intro call hcall
    rw [congo_sound_b_w_calls] at hcall
    simp only [mem_when_not_playing, List.mem_singleton] at hcall
    rcases hcall with ⟨_, rfl | ⟨_, rfl⟩⟩ <;> rfl

/-! ## C8: scenario 1 (ship-combat port A, 0xFF then 0x7F) -/

theorem scenario1_calls (p1 p2 : Nat → Bool) :
    (zaxxon_sound_a_w (zaxxon_sound_a_w ⟨0, 0, 0⟩ p1 0xFF).1 p2 0x7F).2 =
      [SampleCall.sample_set_volume 10 (16290677 / 16777216),
       SampleCall.sample_set_volume 11 (16290677 / 16777216),
       SampleCall.sample_start 3 3 true] := by
  rw [zaxxon_sound_a_w_calls]
  have hv : to_float (double_add (to_double 0.5)
      (double_mul (to_double 0.157) ((0x7F &&& 0x03 : Nat) : ℚ))) = 16290677 / 16777216 := by
    rw [volume_values]
    norm_num
  have e2 : fell 0xFF 0x7F 2 = false ∧ rose 0xFF 0x7F 2 = false := by decide
  have e3 : fell 0xFF 0x7F 3 = false ∧ rose 0xFF 0x7F 3 = false := by decide
  have e4 : fell 0xFF 0x7F 4 = false ∧ rose 0xFF 0x7F 4 = false := by decide
  have e5 : fell 0xFF 0x7F 5 = false := by decide
  have e6 : fell 0xFF 0x7F 6 = false ∧ rose 0xFF 0x7F 6 = false := by decide
  have e7 : fell 0xFF 0x7F 7 = true ∧ rose 0xFF 0x7F 7 = false := by decide
  simp only [zaxxon_sound_a_w, hv, e2, e3, e4, e5, e6, e7, when_]
  rfl

/-- C8, as stated, fails: the second write of the scenario issues, besides the
battleship start, the two `sample_set_volume` calls (on channels 10 and 11, with
16290677/16777216, the `float` value of 0.5 + 0.157 * 3), so its list of calls is
not the single start. -/
theorem scenario1_also_sets_volume :
    (zaxxon_sound_a_w (zaxxon_sound_a_w ⟨0, 0, 0⟩ (fun _ => false) 0xFF).1
        (fun _ => false) 0x7F).2 =
      [SampleCall.sample_set_volume 10 (16290677 / 16777216),
       SampleCall.sample_set_volume 11 (16290677 / 16777216),
       SampleCall.sample_start 3 3 true] ∧
    (zaxxon_sound_a_w (zaxxon_sound_a_w ⟨0, 0, 0⟩ (fun _ => false) 0xFF).1
        (fun _ => false) 0x7F).2 ≠ [SampleCall.sample_start 3 3 true] := by
  rw [scenario1_calls]
  exact ⟨rfl, by simp⟩

/-- C8 (amended): starting from all stored port bytes equal to 0, writing 0xFF and
then 0x7F through `zaxxon_sound_a_w`, the second write issues exactly one
start/stop call, the battleship looping start (channel 3, sample 3, loop =
TRUE); its only other calls are the two `sample_set_volume` calls that the
handler makes on every write, on channels 10 and 11 with 16290677/16777216, the
`float` value of 0.5 + 0.157 * 3. -/
theorem scenario1_battleship (p1 p2 : Nat → Bool) :
    triggers (zaxxon_sound_a_w (zaxxon_sound_a_w ⟨0, 0, 0⟩ p1 0xFF).1 p2 0x7F).2 =
        [SampleCall.sample_start 3 3 true] ∧
      (zaxxon_sound_a_w (zaxxon_sound_a_w ⟨0, 0, 0⟩ p1 0xFF).1 p2 0x7F).2 =
        [SampleCall.sample_set_volume 10 (16290677 / 16777216),
       SampleCall.sample_set_volume 11 (16290677 / 16777216),
         SampleCall.sample_start 3 3 true] := by
  rw [scenario1_calls]
  exact ⟨by simp [triggers, SampleCall.isStart, SampleCall.isStop], rfl⟩

/-! ## C9: scenario 2 (percussion port C, 0x01, 0x00, 0x01) -/

theorem scenario2_calls (s0 s1 : Nat) (p1 p2 p3 : Nat → Bool) :
    (Handler.congo_c.writes ⟨s0, s1, 0⟩ [(p1, 0x01), (p2, 0x00), (p3, 0x01)]).2 =
      [[SampleCall.sample_stop 1], [SampleCall.sample_start 1 1 false],
       [SampleCall.sample_stop 1]] := by
  have e01 : (fell 0 1 0 = false ∧ rose 0 1 0 = true) ∧ (fell 0 1 1 = false ∧ rose 0 1 1 = false) ∧
      (fell 0 1 2 = false ∧ rose 0 1 2 = false) ∧ (fell 0 1 3 = false ∧ rose 0 1 3 = false) := by
    decide
  have e10 : (fell 1 0 0 = true ∧ rose 1 0 0 = false) ∧ (fell 1 0 1 = false ∧ rose 1 0 1 = false) ∧
      (fell 1 0 2 = false ∧ rose 1 0 2 = false) ∧ (fell 1 0 3 = false ∧ rose 1 0 3 = false) := by
    decide
  simp only [Handler.writes, Handler.run, congo_sound_c_w_calls]
  simp only [congo_sound_c_w, e01, e10, when_]
  rfl

/-- C9, as stated, fails: from the all-zero state the three writes 0x01, 0x00,
0x01 through `congo_sound_c_w` issue Stop(1), then a start of the bass drum with
loop = FALSE, then Stop(1); the sequence is not StartLooping then Stop. -/
theorem scenario2_is_stop_start_stop :
    (Handler.congo_c.writes ⟨0, 0, 0⟩
        [(fun _ => false, 0x01), (fun _ => false, 0x00), (fun _ => false, 0x01)]).2.flatten =
      [SampleCall.sample_stop 1, SampleCall.sample_start 1 1 false, SampleCall.sample_stop 1] ∧
    (Handler.congo_c.writes ⟨0, 0, 0⟩
        [(fun _ => false, 0x01), (fun _ => false, 0x00), (fun _ => false, 0x01)]).2.flatten ≠
      [SampleCall.sample_start 1 1 true, SampleCall.sample_stop 1] ∧
    SampleCall.sample_start 1 1 true ∉
      (Handler.congo_c.writes ⟨0, 0, 0⟩
        [(fun _ => false, 0x01), (fun _ => false, 0x00), (fun _ => false, 0x01)]).2.flatten := by
  decide

/-- C9 (amended): in the percussion variant, starting from stored port C byte 0,
writing 0x01, then 0x00, then 0x01 through `congo_sound_c_w` issues, write by
write, Stop(channel 1), then a non-looping start of the bass drum (channel 1,
sample 1, loop = FALSE), then Stop(channel 1), and nothing else. -/
theorem scenario2_bass_drum (s0 s1 : Nat) (p1 p2 p3 : Nat → Bool) :
    (Handler.congo_c.writes ⟨s0, s1, 0⟩ [(p1, 0x01), (p2, 0x00), (p3, 0x01)]).2 =
      [[SampleCall.sample_stop 1], [SampleCall.sample_start 1 1 false],
       [SampleCall.sample_stop 1]] :=
  scenario2_calls s0 s1 p1 p2 p3

/-! ## C10: one-shot triggers never stop -/

theorem oneshot_rule (h : Handler) (k ch : Nat)
    (hmem : (h, k, ch) ∈
      [(Handler.zaxxon_a, 5, 1), (Handler.zaxxon_b, 4, 4), (Handler.zaxxon_b, 7, 6),
       (Handler.zaxxon_c, 0, 7), (Handler.zaxxon_c, 2, 8)])
    (st : zaxxon_state) (p : Nat → Bool) (d : Nat) :
    triggersOn ch (h.run st p d).2 =
      if fell (h.stored st) d k then [SampleCall.sample_start ch ch false] else [] := by
  simp only [List.mem_cons, List.mem_singleton, Prod.mk.injEq, List.mem_nil_iff, or_false] at hmem
  rcases hmem with ⟨rfl, rfl, rfl⟩ | ⟨rfl, rfl, rfl⟩ | ⟨rfl, rfl, rfl⟩ | ⟨rfl, rfl, rfl⟩ |
    ⟨rfl, rfl, rfl⟩ <;>
  simp only [Handler.run, Handler.stored, zaxxon_sound_a_w_calls, zaxxon_sound_b_w_calls,
    zaxxon_sound_c_w_calls] <;>
  simp +decide only [triggersOn, List.filter_append, filter_when_, filter_when_not_playing,
    List.filter_cons, List.filter_nil, when_nil, SampleCall.isStart, SampleCall.isStop,
    SampleCall.channel, List.append_nil, List.nil_append, Bool.or_false, Bool.or_true,
    Bool.true_and, Bool.false_and, if_true, if_false, Bool.false_eq_true] <;>
  rfl

theorem zaxxon_stop_channels (h : Handler)
    (hh : h ∈ [Handler.zaxxon_a, Handler.zaxxon_b, Handler.zaxxon_c])
    (st : zaxxon_state) (p : Nat → Bool) (d : Nat) (call : SampleCall)
    (hcall : call ∈ (h.run st p d).2) (hstop : call.isStop = true) :
    call.channel ∈ [10, 11, 0, 2, 3] := by
  simp only [List.mem_cons, List.mem_singleton, List.mem_nil_iff, or_false] at hh
  rcases hh with rfl | rfl | rfl
  · rw [Handler.run, zaxxon_sound_a_w_calls] at hcall
    simp only [List.mem_append, mem_when_, List.mem_singleton] at hcall
    rcases hcall with
      (((((((((((rfl | rfl) | ⟨_, rfl⟩) | ⟨_, rfl⟩) | ⟨_, rfl⟩) | ⟨_, rfl⟩) | ⟨_, rfl⟩) |
        ⟨_, rfl⟩) | ⟨_, rfl⟩) | ⟨_, rfl⟩) | ⟨_, rfl⟩) | ⟨_, rfl⟩) | ⟨_, rfl⟩ <;>
      simp [SampleCall.isStop, SampleCall.channel] at hstop ⊢
  · rw [Handler.run, zaxxon_sound_b_w_calls] at hcall
    simp only [List.mem_append, mem_when_, mem_when_not_playing, List.mem_singleton] at hcall
    rcases hcall with (⟨_, rfl⟩ | ⟨_, rfl | ⟨_, rfl⟩⟩) | ⟨_, rfl⟩ <;>
      simp [SampleCall.isStop] at hstop
  · rw [Handler.run, zaxxon_sound_c_w_calls] at hcall
    simp only [List.mem_append, mem_when_, mem_when_not_playing, List.mem_singleton] at hcall
    rcases hcall with (⟨_, rfl⟩ | ⟨_, rfl⟩) | ⟨_, rfl | ⟨_, rfl⟩⟩ <;>
      simp [SampleCall.isStop] at hstop

/-- C10: for every stored byte, new byte and is-playing answer, each unguarded
ship-combat one-shot bit (port A bit 5 -> channel 1, port B bit 4 -> channel 4,
port B bit 7 -> channel 6, port C bit 0 -> channel 7, port C bit 2 -> channel 8)
issues on its channel exactly one non-looping start (sample = channel, loop =
FALSE) when the bit went 1 -> 0 and no start or stop otherwise; and no write
through `zaxxon_sound_a_w`, `zaxxon_sound_b_w` or `zaxxon_sound_c_w` issues a
`sample_stop` on channel 1, 4, 5, 6, 7, 8 or 9 (every stop is on one of the
toggle channels 10, 11, 0, 2, 3). -/
theorem oneshot_never_stops (st : zaxxon_state) (p : Nat → Bool) (d : Nat) :
    (∀ (h : Handler) (k ch : Nat),
      (h, k, ch) ∈
        [(Handler.zaxxon_a, 5, 1), (Handler.zaxxon_b, 4, 4), (Handler.zaxxon_b, 7, 6),
         (Handler.zaxxon_c, 0, 7), (Handler.zaxxon_c, 2, 8)] →
      triggersOn ch (h.run st p d).2 =
        if fell (h.stored st) d k then [SampleCall.sample_start ch ch false] else []) ∧
    (∀ h ∈ [Handler.zaxxon_a, Handler.zaxxon_b, Handler.zaxxon_c],
      ∀ call ∈ (h.run st p d).2, call.isStop = true →
        call.channel ∉ [1, 4, 5, 6, 7, 8, 9] ∧ call.channel ∈ [10, 11, 0, 2, 3]) := by
  refine ⟨fun h k ch hmem => oneshot_rule h k ch hmem st p d, ?_⟩
  intro h hh call hcall hstop
  have hch := zaxxon_stop_channels h hh st p d call hcall hstop
  refine ⟨?_, hch⟩
  simp only [List.mem_cons, List.mem_singleton, List.mem_nil_iff, or_false] at hch
  rcases hch with e | e | e | e | e <;> rw [e] <;> decide

/-! ## C11: the stored bytes track the last write -/

theorem stored_eq_sound_state (h : Handler) (st : zaxxon_state) :
    h.stored st = st.sound_state h.port := by
  cases h <;> rfl

theorem run_sound_state (h : Handler) (st : zaxxon_state) (p : Nat → Bool) (d i : Nat)
    (hi : i < 3) :
    (h.run st p d).1.sound_state i = if h.port = i then d else st.sound_state i := by
  have h3 : i = 0 ∨ i = 1 ∨ i = 2 := by omega
  rcases h3 with rfl | rfl | rfl <;> cases h <;> rfl

theorem run_writes_sound_state (ws : List (Handler × (Nat → Bool) × Nat)) (st : zaxxon_state)
    (i : Nat) (hi : i < 3) :
    (run_writes st ws).1.sound_state i = lastWritten i (st.sound_state i) ws := by
  induction ws generalizing st with
  | nil => rfl
  | cons w ws ih =>
    simp only [run_writes, lastWritten, List.foldl_cons]
    rw [ih, run_sound_state _ _ _ _ _ hi]
    rfl

theorem diff_of_bytes (h : Handler) (st : zaxxon_state) (d : Nat) (hd : d < 256)
    (hs : h.stored st < 256) : h.diff st d = d ^^^ h.stored st := by
  unfold Handler.diff
  exact Nat.mod_eq_of_lt (Nat.xor_lt_two_pow (n := 8) hd hs)

theorem run_calls_of_diff (h : Handler) (st1 st2 : zaxxon_state) (p : Nat → Bool) (d : Nat)
    (hdiff : h.diff st1 d = h.diff st2 d) : (h.run st1 p d).2 = (h.run st2 p d).2 := by
  cases h <;> simp only [Handler.diff, Handler.stored] at hdiff <;>
    simp only [Handler.run, zaxxon_sound_a_w, zaxxon_sound_b_w, zaxxon_sound_c_w, congo_sound_b_w,
      congo_sound_c_w, hdiff]

/-- C11: after any handler runs with byte `data`, the stored byte of that
handler's port (`sound_state[0]` for port A, `[1]` for port B, `[2]` for port C)
equals `data`, whatever the previous state and the is-playing answers, and the
other two stored bytes are unchanged; hence after any sequence of writes each
stored byte equals the most recent byte written to its port (the initial byte if
there was none), and the `diff` of a write is the XOR (as a `UINT8`) of the new
byte with the byte most recently written to the same port, on which alone the
calls of the write depend besides the new byte and the is-playing answers. -/
theorem port_state_tracks_last_write (st : zaxxon_state) :
    (∀ (h : Handler) (p : Nat → Bool) (d : Nat),
      h.stored (h.run st p d).1 = d ∧ (h.run st p d).1.sound_state h.port = d ∧
      ∀ i, i < 3 → i ≠ h.port → (h.run st p d).1.sound_state i = st.sound_state i) ∧
    (∀ (ws : List (Handler × (Nat → Bool) × Nat)) (i : Nat), i < 3 →
      (run_writes st ws).1.sound_state i = lastWritten i (st.sound_state i) ws) ∧
    (∀ (ws : List (Handler × (Nat → Bool) × Nat)) (h : Handler) (d : Nat),
      h.diff (run_writes st ws).1 d =
        (d ^^^ lastWritten h.port (st.sound_state h.port) ws) % 256) ∧
    (∀ (h : Handler) (d : Nat), d < 256 → h.stored st < 256 →
      h.diff st d = d ^^^ h.stored st) ∧
    (∀ (h : Handler) (st2 : zaxxon_state) (p : Nat → Bool) (d : Nat),
      h.diff st d = h.diff st2 d → (h.run st p d).2 = (h.run st2 p d).2) := by
  have hport : ∀ h : Handler, h.port < 3 := by
    intro h
    cases h <;> decide
  refine ⟨?_, ?_, ?_, ?_, ?_⟩
  · intro h p d
    refine ⟨run_stored h st p d, ?_, ?_⟩
    · rw [run_sound_state h st p d h.port (hport h), if_pos rfl]
    · intro i hi hne
      rw [run_sound_state h st p d i hi, if_neg (fun e => hne e.symm)]
  · intro ws i hi
    exact run_writes_sound_state ws st i hi
  · intro ws h d
    rw [Handler.diff, stored_eq_sound_state, run_writes_sound_state ws st h.port (hport h)]
  · intro h d hd hs
    exact diff_of_bytes h st d hd hs
  · intro h st2 p d hdiff
    exact run_calls_of_diff h st st2 p d hdiff

/-! ## C12: untested bits fire nothing -/

theorem run_calls_of_untested (h : Handler) (st : zaxxon_state) (p : Nat → Bool) (d : Nat)
    (hdiff : ∀ k, k < 8 → k ∉ h.untestedBits → d.testBit k = (h.stored st).testBit k) :
    triggers (h.run st p d).2 = [] ∧ (h ≠ Handler.zaxxon_a → (h.run st p d).2 = []) := by
  have hf : ∀ k, k < 8 → k ∉ h.untestedBits → fell (h.stored st) d k = false :=
    fun k hk hn => fell_of_same _ _ _ (hdiff k hk hn)
  have hr : ∀ k, k < 8 → k ∉ h.untestedBits → rose (h.stored st) d k = false :=
    fun k hk hn => rose_of_same _ _ _ (hdiff k hk hn)
  cases h <;> simp only [Handler.stored, Handler.untestedBits] at hf hr
  · simp [Handler.run, zaxxon_sound_a_w_calls, triggers, when_, SampleCall.isStart,
      SampleCall.isStop, hf 2 (by decide) (by decide), hf 3 (by decide) (by decide),
      hf 4 (by decide) (by decide), hf 5 (by decide) (by decide), hf 6 (by decide) (by decide),
      hf 7 (by decide) (by decide), hr 2 (by decide) (by decide), hr 3 (by decide) (by decide),
      hr 4 (by decide) (by decide), hr 6 (by decide) (by decide), hr 7 (by decide) (by decide)]
  · simp [Handler.run, zaxxon_sound_b_w_calls, triggers, when_, when_not_playing,
      hf 4 (by decide) (by decide), hf 5 (by decide) (by decide), hf 7 (by decide) (by decide)]
  · simp [Handler.run, zaxxon_sound_c_w_calls, triggers, when_, when_not_playing,
      hf 0 (by decide) (by decide), hf 2 (by decide) (by decide), hf 3 (by decide) (by decide)]
  · simp [Handler.run, congo_sound_b_w_calls, triggers, when_not_playing,
      hf 1 (by decide) (by decide)]
  · simp [Handler.run, congo_sound_c_w_calls, triggers, when_,
      hf 0 (by decide) (by decide), hf 1 (by decide) (by decide), hf 2 (by decide) (by decide),
      hf 3 (by decide) (by decide), hr 0 (by decide) (by decide), hr 1 (by decide) (by decide),
      hr 2 (by decide) (by decide), hr 3 (by decide) (by decide)]

/-- C12: a write whose byte differs from the stored previous byte of its port
only in bits the handler does not test (ship-combat port B bits 0-3 and 6,
ship-combat port C bits 1 and 4-7, percussion port B bits 0 and 2-7 with the
bit 7 mute flag, percussion port C bits 4-7; for ship-combat port A the volume
bits 0-1) issues no `sample_start` and no `sample_stop`, for every previous byte
and every is-playing answer; for the four port B and port C handlers it makes no
call at all. -/
theorem untested_bits_fire_nothing (h : Handler) (st : zaxxon_state) (p : Nat → Bool) (d : Nat)
    (hdiff : ∀ k, k < 8 → k ∉ h.untestedBits → d.testBit k = (h.stored st).testBit k) :
    triggers (h.run st p d).2 = [] ∧ (h ≠ Handler.zaxxon_a → (h.run st p d).2 = []) :=
  run_calls_of_untested h st p d hdiff

/-- Witness for C12: `zaxxon_sound_b_w` with stored byte 0xB0 and written byte
0xFF, which differ exactly in the untested bits 0-3 and 6. -/
theorem untested_bits_fire_nothing_witness :
    triggers (zaxxon_sound_b_w ⟨0, 0xB0, 0⟩ (fun _ => false) 0xFF).2 = [] ∧
      (zaxxon_sound_b_w ⟨0, 0xB0, 0⟩ (fun _ => false) 0xFF).2 = [] :=
  ⟨(untested_bits_fire_nothing Handler.zaxxon_b ⟨0, 0xB0, 0⟩ (fun _ => false) 0xFF
      (by decide)).1,
    (untested_bits_fire_nothing Handler.zaxxon_b ⟨0, 0xB0, 0⟩ (fun _ => false) 0xFF
      (by decide)).2 (by decide)⟩

/-! ## C13: the volume stays in range -/

theorem zaxxon_a_volume_value (st : zaxxon_state) (p : Nat → Bool) (d ch : Nat) (v : ℚ)
    (hcall : SampleCall.sample_set_volume ch v ∈ (zaxxon_sound_a_w st p d).2) :
    v = to_float (double_add (to_double 0.5)
      (double_mul (to_double 0.157) ((d &&& 0x03 : Nat) : ℚ))) := by
  rw [zaxxon_sound_a_w_calls] at hcall
  simp only [List.mem_append, mem_when_, List.mem_singleton] at hcall
  rcases hcall with
    (((((((((((h | h) | ⟨_, h⟩) | ⟨_, h⟩) | ⟨_, h⟩) | ⟨_, h⟩) | ⟨_, h⟩) |
      ⟨_, h⟩) | ⟨_, h⟩) | ⟨_, h⟩) | ⟨_, h⟩) | ⟨_, h⟩) | ⟨_, h⟩ <;>
    first
    | exact (SampleCall.sample_set_volume.inj h).2
    | exact SampleCall.noConfusion h

/-- C13: for every stored byte and every byte written through
`zaxxon_sound_a_w`, every volume passed to `sample_set_volume` (the `float`
value of 0.5 + 0.157 * (data & 0x03)) lies in the closed interval [0.0, 1.0],
more precisely between 0.5 and 16290677/16777216; and in exact arithmetic
0.5 <= 0.5 + 0.157 * (data & 0x03) <= 0.971. -/
theorem volume_in_range (st : zaxxon_state) (p : Nat → Bool) (d ch : Nat) (v : ℚ)
    (hcall : SampleCall.sample_set_volume ch v ∈ (zaxxon_sound_a_w st p d).2) :
    (0.0 ≤ v ∧ v ≤ 1.0) ∧ (0.5 ≤ v ∧ v ≤ 16290677 / 16777216) ∧
      v = to_float (double_add (to_double 0.5)
        (double_mul (to_double 0.157) ((d &&& 0x03 : Nat) : ℚ))) ∧
      ((0.5 : ℚ) ≤ 0.5 + 0.157 * ((d &&& 0x03 : Nat) : ℚ) ∧
        (0.5 + 0.157 * ((d &&& 0x03 : Nat) : ℚ) : ℚ) ≤ 0.971) := by
  have hv := zaxxon_a_volume_value st p d ch v hcall
  have hval := volume_values d
  have h4 : d % 4 < 4 := Nat.mod_lt _ (by decide)
  refine ⟨?_, ?_, hv, ?_⟩
  · rw [hv, hval]
    generalize d % 4 = r at h4
    interval_cases r <;> norm_num
  · rw [hv, hval]
    generalize d % 4 = r at h4
    interval_cases r <;> norm_num
  · rw [and_three]
    generalize d % 4 = r at h4
    interval_cases r <;> norm_num

/-- Witness for C13: stored port A byte 0, written byte 0x03, the call
`sample_set_volume(samples, 10, ...)` with the largest volume the handler
passes, 16290677/16777216. -/
theorem volume_in_range_witness :
    ((0.0 : ℚ) ≤ 16290677 / 16777216 ∧ (16290677 / 16777216 : ℚ) ≤ 1.0) ∧
      ((0.5 : ℚ) ≤ 16290677 / 16777216 ∧ (16290677 / 16777216 : ℚ) ≤ 16290677 / 16777216) ∧
      (16290677 / 16777216 : ℚ) = to_float (double_add (to_double 0.5)
        (double_mul (to_double 0.157) ((0x03 &&& 0x03 : Nat) : ℚ))) ∧
      ((0.5 : ℚ) ≤ 0.5 + 0.157 * ((0x03 &&& 0x03 : Nat) : ℚ) ∧
        (0.5 + 0.157 * ((0x03 &&& 0x03 : Nat) : ℚ) : ℚ) ≤ 0.971) :=
  volume_in_range ⟨0, 0, 0⟩ (fun _ => false) 0x03 10 (16290677 / 16777216) (by
    rw [zaxxon_sound_a_w_calls]
    simp only [List.append_assoc, List.singleton_append]
    refine List.mem_append_left _ ?_
    rw [volume_values]
    norm_num)

/-! ## C14: start/stop alternation on the toggle channels -/

theorem alternates_concat (l : List SampleCall) (x : SampleCall) (hl : alternates l = true)
    (hlast : ∀ c, l.getLast? = some c →
      ((c.isStart && x.isStop) || (c.isStop && x.isStart)) = true) :
    alternates (l ++ [x]) = true := by
  induction l with
  | nil => rfl
  | cons a l ih =>
    cases l with
    | nil =>
      have := hlast a rfl
      simp [alternates, this]
    | cons b l2 =>
      simp only [alternates, Bool.and_eq_true] at hl
      have ih2 := ih hl.2 (by
        intro c hc
        apply hlast c
        rw [List.getLast?_cons_cons]
        exact hc)
      simp only [List.cons_append, alternates, Bool.and_eq_true]
      exact ⟨hl.1, ih2⟩

/-- A bit handled by a start/stop pair of statements: over any sequence of writes
through the handler, the start/stop calls on the bit's channel alternate, and the
last of them is a start when the stored bit is 0 and a stop when it is 1. -/
theorem toggle_alternates (h : Handler) (k ch : Nat) (lp : Bool)
    (htog : ∀ (st : zaxxon_state) (p : Nat → Bool) (d : Nat),
      triggersOn ch (h.run st p d).2 =
        if fell (h.stored st) d k then [SampleCall.sample_start ch ch lp]
        else if rose (h.stored st) d k then [SampleCall.sample_stop ch] else [])
    (st : zaxxon_state) (ws : List ((Nat → Bool) × Nat)) :
    alternates (triggersOn ch (h.writes st ws).2.flatten) = true ∧
      ∀ c, (triggersOn ch (h.writes st ws).2.flatten).getLast? = some c →
        (c.isStart = true ↔ (h.stored (h.writes st ws).1).testBit k = false) ∧
        (c.isStop = true ↔ (h.stored (h.writes st ws).1).testBit k = true) := by
  induction ws using List.reverseRecOn with
  | nil =>
    refine ⟨rfl, ?_⟩
    intro c hc
    simp [Handler.writes, triggersOn] at hc
  | append_singleton l w ih =>
    obtain ⟨ihalt, ihlast⟩ := ih
    have hst : h.stored (h.run (h.writes st l).1 w.1 w.2).1 = w.2 := run_stored _ _ _ _
    have hcalls : triggersOn ch (h.writes st (l ++ [w])).2.flatten =
        triggersOn ch (h.writes st l).2.flatten ++
          triggersOn ch (h.run (h.writes st l).1 w.1 w.2).2 := by
      rw [writes_append]
      simp [Handler.writes, triggersOn]
    have hfin : h.stored (h.writes st (l ++ [w])).1 = w.2 := by
      rw [writes_append]
      simpa [Handler.writes] using hst
    rw [hcalls, hfin, htog]
    cases hb : (h.stored (h.writes st l).1).testBit k <;> cases hd : w.2.testBit k <;>
      simp only [fell, rose, hb, hd, Bool.not_true, Bool.not_false, Bool.and_true, Bool.and_false,
        Bool.false_and, Bool.true_and, if_true, if_false, Bool.false_eq_true, List.append_nil]
    · refine ⟨ihalt, fun c hc => ?_⟩
      simpa [hb] using ihlast c hc
    · refine ⟨alternates_concat _ _ ihalt ?_, fun c hc => ?_⟩
      · intro c hc
        have := ihlast c hc
        simp [hb] at this
        rw [this.1, this.2]
        rfl
      · rw [List.getLast?_concat] at hc
        cases hc
        simp [SampleCall.isStart, SampleCall.isStop]
    · refine ⟨alternates_concat _ _ ihalt ?_, fun c hc => ?_⟩
      · intro c hc
        have := ihlast c hc
        simp [hb] at this
        rw [this.1, this.2]
        rfl
      · rw [List.getLast?_concat] at hc
        cases hc
        simp [SampleCall.isStart, SampleCall.isStop]
    · refine ⟨ihalt, fun c hc => ?_⟩
      simpa [hb] using ihlast c hc

/-- C14: for every initial state and every finite sequence of bytes written
through `zaxxon_sound_a_w`, after each write (the first `n` writes, for every
`n`) the start/stop calls issued so far on any one toggle channel (bit 2 ->
channel 10, bit 3 -> 11, bit 4 -> 0, bit 6 -> 2, bit 7 -> 3) alternate between
start and stop, and the most recent of them, if any, is a start exactly when the
corresponding stored bit is 0; the same holds for `congo_sound_c_w` and its
channels 1-4 (bits 0-3). -/
theorem toggle_channels_alternate (st : zaxxon_state) (ws : List ((Nat → Bool) × Nat))
    (n : Nat) :
    (∀ k ch, (k, ch) ∈ [(2, 10), (3, 11), (4, 0), (6, 2), (7, 3)] →
      alternates (triggersOn ch (Handler.zaxxon_a.writes st (ws.take n)).2.flatten) = true ∧
      ∀ c, (triggersOn ch (Handler.zaxxon_a.writes st (ws.take n)).2.flatten).getLast? = some c →
        (c.isStart = true ↔
          (Handler.zaxxon_a.writes st (ws.take n)).1.sound_state0.testBit k = false)) ∧
    (∀ k ch, (k, ch) ∈ [(0, 1), (1, 2), (2, 3), (3, 4)] →
      alternates (triggersOn ch (Handler.congo_c.writes st (ws.take n)).2.flatten) = true ∧
      ∀ c, (triggersOn ch (Handler.congo_c.writes st (ws.take n)).2.flatten).getLast? = some c →
        (c.isStart = true ↔
          (Handler.congo_c.writes st (ws.take n)).1.sound_state2.testBit k = false)) := by
  constructor
  · intro k ch hmem
    have h := toggle_alternates Handler.zaxxon_a k ch true
      (fun st p d => zaxxon_a_toggle st p d k ch hmem) st (ws.take n)
    exact ⟨h.1, fun c hc => (h.2 c hc).1⟩
  · intro k ch hmem
    have h := toggle_alternates Handler.congo_c k ch false
      (fun st p d => congo_c_toggle st p d k ch hmem) st (ws.take n)
    exact ⟨h.1, fun c hc => (h.2 c hc).1⟩

/-! ## C15: channel and sample indices are in range -/

theorem all_when_ (q : SampleCall → Bool) (c : Bool) (l : List SampleCall) :
    (when_ c l).all q = (!c || l.all q) := by
  cases c <;> simp [when_]

theorem all_when_not_playing (q : SampleCall → Bool) (c : Bool) (p : Nat → Bool) (ch : Nat)
    (l : List SampleCall) :
    (when_not_playing c p ch l).all q =
      (!c || (q (SampleCall.sample_playing ch) && (p ch || l.all q))) := by
  cases c <;> cases hp : p ch <;> simp [when_not_playing, hp]

theorem zaxxon_calls_wellIndexed (h : Handler)
    (hh : h ∈ [Handler.zaxxon_a, Handler.zaxxon_b, Handler.zaxxon_c])
    (st : zaxxon_state) (p : Nat → Bool) (d : Nat) :
    (h.run st p d).2.all (SampleCall.wellIndexed 12 12) = true := by
  simp only [List.mem_cons, List.mem_singleton, List.mem_nil_iff, or_false] at hh
  rcases hh with rfl | rfl | rfl
  · rw [Handler.run, zaxxon_sound_a_w_calls]
    simp +decide [List.all_append, all_when_, SampleCall.wellIndexed]
  · rw [Handler.run, zaxxon_sound_b_w_calls]
    simp +decide [List.all_append, all_when_, all_when_not_playing, SampleCall.wellIndexed]
  · rw [Handler.run, zaxxon_sound_c_w_calls]
    simp +decide [List.all_append, all_when_, all_when_not_playing, SampleCall.wellIndexed]

theorem congo_calls_wellIndexed (h : Handler) (hh : h ∈ [Handler.congo_b, Handler.congo_c])
    (st : zaxxon_state) (p : Nat → Bool) (d : Nat) :
    (h.run st p d).2.all (SampleCall.wellIndexed 5 5) = true := by
  simp only [List.mem_cons, List.mem_singleton, List.mem_nil_iff, or_false] at hh
  rcases hh with rfl | rfl
  · rw [Handler.run, congo_sound_b_w_calls]
    simp +decide [all_when_not_playing, SampleCall.wellIndexed]
  · rw [Handler.run, congo_sound_c_w_calls]
    simp +decide [List.all_append, all_when_, SampleCall.wellIndexed]

/-- C15: for every stored state, new byte and is-playing answer, every call of
the ship-combat handlers (`sample_start`, `sample_stop`, `sample_playing`,
`sample_set_volume`) has a channel below the 12 channels of
`zaxxon_samples_interface`, and every `sample_start` has a sample index below
the 12 entries of `zaxxon_sample_names` and equal to its channel; for the
percussion handlers the same holds with the 5 channels of
`congo_samples_interface` and the 5 entries of `congo_sample_names`. -/
theorem indices_in_range (st : zaxxon_state) (p : Nat → Bool) (d : Nat) :
    (zaxxon_samples_interface.channels = 12 ∧ zaxxon_samples_interface.samplenames.length = 12 ∧
      ∀ h ∈ [Handler.zaxxon_a, Handler.zaxxon_b, Handler.zaxxon_c], ∀ call ∈ (h.run st p d).2,
        call.wellIndexed zaxxon_samples_interface.channels
          zaxxon_samples_interface.samplenames.length = true) ∧
    (congo_samples_interface.channels = 5 ∧ congo_samples_interface.samplenames.length = 5 ∧
      ∀ h ∈ [Handler.congo_b, Handler.congo_c], ∀ call ∈ (h.run st p d).2,
        call.wellIndexed congo_samples_interface.channels
          congo_samples_interface.samplenames.length = true) := by
  refine ⟨⟨rfl, rfl, ?_⟩, ⟨rfl, rfl, ?_⟩⟩
  · intro h hh call hcall
    exact List.all_eq_true.mp (zaxxon_calls_wellIndexed h hh st p d) call hcall
  · intro h hh call hcall
    exact List.all_eq_true.mp (congo_calls_wellIndexed h hh st p d) call hcall

/-! ## C16: at most one trigger call per channel per write -/

theorem length_toggle (s d k : Nat) (x y : SampleCall) :
    (when_ (fell s d k) [x] ++ when_ (rose s d k) [y]).length =
      if (d.testBit k != s.testBit k) = true then 1 else 0 := by
  unfold fell rose
  cases d.testBit k <;> cases s.testBit k <;> rfl

theorem length_oneshot (s d k : Nat) (x : SampleCall) :
    (when_ (fell s d k) [x]).length ≤ if (d.testBit k != s.testBit k) = true then 1 else 0 := by
  unfold fell
  cases d.testBit k <;> cases s.testBit k <;> simp [when_]

theorem length_guarded (s d k : Nat) (c : Bool) (x : SampleCall) :
    (when_ (fell s d k) (when_ c [x])).length ≤
      if (d.testBit k != s.testBit k) = true then 1 else 0 := by
  unfold fell
  cases d.testBit k <;> cases s.testBit k <;> cases c <;> simp [when_]

/-- The start/stop calls of a write are at most as many as the trigger bits of
the handler whose value in the written byte differs from the stored byte. -/
theorem triggers_count (h : Handler) (st : zaxxon_state) (p : Nat → Bool) (d : Nat) :
    (triggers (h.run st p d).2).length ≤
      (h.triggerBits.filter
        (fun kc => d.testBit kc.1 != (h.stored st).testBit kc.1)).length := by
  cases h
  · rw [Handler.run, zaxxon_sound_a_w_calls]
    have t2 := length_toggle st.sound_state0 d 2 (SampleCall.sample_start 10 10 true)
      (SampleCall.sample_stop 10)
    have t3 := length_toggle st.sound_state0 d 3 (SampleCall.sample_start 11 11 true)
      (SampleCall.sample_stop 11)
    have t4 := length_toggle st.sound_state0 d 4 (SampleCall.sample_start 0 0 true)
      (SampleCall.sample_stop 0)
    have t5 := length_oneshot st.sound_state0 d 5 (SampleCall.sample_start 1 1 false)
    have t6 := length_toggle st.sound_state0 d 6 (SampleCall.sample_start 2 2 true)
      (SampleCall.sample_stop 2)
    have t7 := length_toggle st.sound_state0 d 7 (SampleCall.sample_start 3 3 true)
      (SampleCall.sample_stop 3)
    simp only [List.length_append] at t2 t3 t4 t6 t7
    simp +decide only [triggers, List.filter_append, filter_when_, filter_when_not_playing,
      List.filter_cons, List.filter_nil, when_nil, SampleCall.isStart, SampleCall.isStop,
      List.append_nil, List.nil_append, Bool.or_false, Bool.or_true, if_true, if_false,
      Bool.false_eq_true]
    simp only [Handler.triggerBits, Handler.stored, ← List.countP_eq_length_filter,
      List.countP_cons, List.countP_nil, List.length_append]
    omega
  · rw [Handler.run, zaxxon_sound_b_w_calls]
    have t4 := length_oneshot st.sound_state1 d 4 (SampleCall.sample_start 4 4 false)
    have t5 := length_guarded st.sound_state1 d 5 (!p 5) (SampleCall.sample_start 5 5 false)
    have t7 := length_oneshot st.sound_state1 d 7 (SampleCall.sample_start 6 6 false)
    simp +decide only [triggers, List.filter_append, filter_when_, filter_when_not_playing,
      List.filter_cons, List.filter_nil, when_nil, SampleCall.isStart, SampleCall.isStop,
      List.append_nil, List.nil_append, Bool.or_false, Bool.or_true, if_true, if_false,
      Bool.false_eq_true]
    simp only [Handler.triggerBits, Handler.stored, ← List.countP_eq_length_filter,
      List.countP_cons, List.countP_nil, List.length_append]
    omega
  · rw [Handler.run, zaxxon_sound_c_w_calls]
    have t0 := length_oneshot st.sound_state2 d 0 (SampleCall.sample_start 7 7 false)
    have t2 := length_oneshot st.sound_state2 d 2 (SampleCall.sample_start 8 8 false)
    have t3 := length_guarded st.sound_state2 d 3 (!p 9) (SampleCall.sample_start 9 9 false)
    simp +decide only [triggers, List.filter_append, filter_when_, filter_when_not_playing,
      List.filter_cons, List.filter_nil, when_nil, SampleCall.isStart, SampleCall.isStop,
      List.append_nil, List.nil_append, Bool.or_false, Bool.or_true, if_true, if_false,
      Bool.false_eq_true]
    simp only [Handler.triggerBits, Handler.stored, ← List.countP_eq_length_filter,
      List.countP_cons, List.countP_nil, List.length_append]
    omega
  · rw [Handler.run, congo_sound_b_w_calls]
    have t1 := length_guarded st.sound_state1 d 1 (!p 0) (SampleCall.sample_start 0 0 false)
    simp +decide only [triggers, List.filter_append, filter_when_, filter_when_not_playing,
      List.filter_cons, List.filter_nil, when_nil, SampleCall.isStart, SampleCall.isStop,
      List.append_nil, List.nil_append, Bool.or_false, Bool.or_true, if_true, if_false,
      Bool.false_eq_true]
    simp only [Handler.triggerBits, Handler.stored, ← List.countP_eq_length_filter,
      List.countP_cons, List.countP_nil, List.length_append]
    omega
  · rw [Handler.run, congo_sound_c_w_calls]
    have t0 := length_toggle st.sound_state2 d 0 (SampleCall.sample_start 1 1 false)
      (SampleCall.sample_stop 1)
    have t1 := length_toggle st.sound_state2 d 1 (SampleCall.sample_start 2 2 false)
      (SampleCall.sample_stop 2)
    have t2 := length_toggle st.sound_state2 d 2 (SampleCall.sample_start 3 3 false)
      (SampleCall.sample_stop 3)
    have t3 := length_toggle st.sound_state2 d 3 (SampleCall.sample_start 4 4 false)
      (SampleCall.sample_stop 4)
    simp only [List.length_append] at t0 t1 t2 t3
    simp +decide only [triggers, List.filter_append, filter_when_, filter_when_not_playing,
      List.filter_cons, List.filter_nil, when_nil, SampleCall.isStart, SampleCall.isStop,
      List.append_nil, List.nil_append, Bool.or_false, Bool.or_true, if_true, if_false,
      Bool.false_eq_true]
    simp only [Handler.triggerBits, Handler.stored, ← List.countP_eq_length_filter,
      List.countP_cons, List.countP_nil, List.length_append]
    omega

/-- The start/stop calls of a write on the channel of one of its trigger bits. -/
theorem triggersOn_rule_length (h : Handler) (st : zaxxon_state) (p : Nat → Bool) (d : Nat)
    (k ch : Nat) (hmem : (k, ch) ∈ h.triggerBits) :
    (triggersOn ch (h.run st p d).2).length ≤ 1 := by
  cases h <;> simp only [Handler.triggerBits, List.mem_cons, List.mem_singleton, Prod.mk.injEq,
      List.mem_nil_iff, or_false] at hmem
  · rw [Handler.run, zaxxon_sound_a_w_calls]
    rcases hmem with ⟨rfl, rfl⟩ | ⟨rfl, rfl⟩ | ⟨rfl, rfl⟩ | ⟨rfl, rfl⟩ | ⟨rfl, rfl⟩ | ⟨rfl, rfl⟩ <;>
      simp +decide only [triggersOn, List.filter_append, filter_when_, filter_when_not_playing,
        List.filter_cons, List.filter_nil, when_nil, SampleCall.isStart, SampleCall.isStop,
        SampleCall.channel, List.append_nil, List.nil_append, Bool.or_false, Bool.or_true,
        Bool.true_and, Bool.false_and, if_true, if_false, Bool.false_eq_true] <;>
      first
      | (rw [length_toggle]; split <;> decide)
      | (simp only [when_]; split <;> decide)
  · rw [Handler.run, zaxxon_sound_b_w_calls]
    rcases hmem with ⟨rfl, rfl⟩ | ⟨rfl, rfl⟩ | ⟨rfl, rfl⟩ <;>
      simp +decide only [triggersOn, List.filter_append, filter_when_, filter_when_not_playing,
        List.filter_cons, List.filter_nil, when_nil, SampleCall.isStart, SampleCall.isStop,
        SampleCall.channel, List.append_nil, List.nil_append, Bool.or_false, Bool.or_true,
        Bool.true_and, Bool.false_and, if_true, if_false, Bool.false_eq_true] <;>
      first
      | (simp only [when_]; split <;> decide)
      | (simp only [when_]; split <;> first | decide | (split <;> decide))
  · rw [Handler.run, zaxxon_sound_c_w_calls]
    rcases hmem with ⟨rfl, rfl⟩ | ⟨rfl, rfl⟩ | ⟨rfl, rfl⟩ <;>
      simp +decide only [triggersOn, List.filter_append, filter_when_, filter_when_not_playing,
        List.filter_cons, List.filter_nil, when_nil, SampleCall.isStart, SampleCall.isStop,
        SampleCall.channel, List.append_nil, List.nil_append, Bool.or_false, Bool.or_true,
        Bool.true_and, Bool.false_and, if_true, if_false, Bool.false_eq_true] <;>
      first
      | (simp only [when_]; split <;> decide)
      | (simp only [when_]; split <;> first | decide | (split <;> decide))
  · rw [Handler.run, congo_sound_b_w_calls]
    rcases hmem with ⟨rfl, rfl⟩
    simp +decide only [triggersOn, List.filter_append, filter_when_, filter_when_not_playing,
      List.filter_cons, List.filter_nil, when_nil, SampleCall.isStart, SampleCall.isStop,
      SampleCall.channel, List.append_nil, List.nil_append, Bool.or_false, Bool.or_true,
      Bool.true_and, Bool.false_and, if_true, if_false, Bool.false_eq_true]
    simp only [when_]
    split <;> first | decide | (split <;> decide)
  · rw [Handler.run, congo_sound_c_w_calls]
    rcases hmem with ⟨rfl, rfl⟩ | ⟨rfl, rfl⟩ | ⟨rfl, rfl⟩ | ⟨rfl, rfl⟩ <;>
      simp +decide only [triggersOn, List.filter_append, filter_when_, filter_when_not_playing,
        List.filter_cons, List.filter_nil, when_nil, SampleCall.isStart, SampleCall.isStop,
        SampleCall.channel, List.append_nil, List.nil_append, Bool.or_false, Bool.or_true,
        Bool.true_and, Bool.false_and, if_true, if_false, Bool.false_eq_true] <;>
      (rw [length_toggle]; split <;> decide)

theorem trigger_channels (h : Handler) (st : zaxxon_state) (p : Nat → Bool) (d : Nat) :
    (h.run st p d).2.all (fun c =>
      !(c.isStart || c.isStop) || decide (c.channel ∈ h.triggerBits.map Prod.snd)) = true := by
  cases h
  · rw [Handler.run, zaxxon_sound_a_w_calls]
    simp +decide [List.all_append, all_when_, SampleCall.isStart, SampleCall.isStop,
      SampleCall.channel, Handler.triggerBits]
  · rw [Handler.run, zaxxon_sound_b_w_calls]
    simp +decide [List.all_append, all_when_, all_when_not_playing, SampleCall.isStart,
      SampleCall.isStop, SampleCall.channel, Handler.triggerBits]
  · rw [Handler.run, zaxxon_sound_c_w_calls]
    simp +decide [List.all_append, all_when_, all_when_not_playing, SampleCall.isStart,
      SampleCall.isStop, SampleCall.channel, Handler.triggerBits]
  · rw [Handler.run, congo_sound_b_w_calls]
    simp +decide [all_when_not_playing, SampleCall.isStart, SampleCall.isStop,
      SampleCall.channel, Handler.triggerBits]
  · rw [Handler.run, congo_sound_c_w_calls]
    simp +decide [List.all_append, all_when_, SampleCall.isStart, SampleCall.isStop,
      SampleCall.channel, Handler.triggerBits]

theorem triggersOn_length (h : Handler) (st : zaxxon_state) (p : Nat → Bool) (d ch : Nat) :
    (triggersOn ch (h.run st p d).2).length ≤ 1 := by
  by_cases hch : ch ∈ h.triggerBits.map Prod.snd
  · obtain ⟨kc, hkc, rfl⟩ := List.mem_map.mp hch
    exact triggersOn_rule_length h st p d kc.1 kc.2 hkc
  · have hnil : triggersOn ch (h.run st p d).2 = [] := by
      unfold triggersOn
      rw [List.filter_eq_nil_iff]
      intro c hc hq
      have hall := List.all_eq_true.mp (trigger_channels h st p d) c hc
      simp only [Bool.and_eq_true, beq_iff_eq] at hq
      rw [hq.1, hq.2] at hall
      simp only [Bool.not_true, Bool.false_or, decide_eq_true_eq] at hall
      exact hch hall
    rw [hnil]
    exact Nat.zero_le _

theorem mem_of_length_le_one (l : List SampleCall) (hl : l.length ≤ 1) (a b : SampleCall)
    (ha : a ∈ l) (hb : b ∈ l) : a = b := by
  match l, hl with
  | [], _ => cases ha
  | [x], _ =>
    rw [List.mem_singleton] at ha hb
    rw [ha, hb]
  | _ :: _ :: _, hl => simp at hl

/-- C16: for every handler, stored state, new byte and is-playing answer, a
single write issues at most one start-or-stop call on any given channel, so no
write issues both a `sample_start` and a `sample_stop` on the same channel; and
the number of start/stop calls of the write is at most the number of the
handler's trigger bits that differ between the stored byte and the new byte. -/
theorem one_trigger_per_channel (h : Handler) (st : zaxxon_state) (p : Nat → Bool) (d : Nat) :
    (∀ ch, (triggersOn ch (h.run st p d).2).length ≤ 1) ∧
    (∀ a ∈ (h.run st p d).2, ∀ b ∈ (h.run st p d).2,
      a.isStart = true → b.isStop = true → a.channel ≠ b.channel) ∧
    (triggers (h.run st p d).2).length ≤
      (h.triggerBits.filter
        (fun kc => d.testBit kc.1 != (h.stored st).testBit kc.1)).length := by
  refine ⟨fun ch => triggersOn_length h st p d ch, ?_, triggers_count h st p d⟩
  intro a ha b hb hsa hsb hch
  have hma : a ∈ triggersOn b.channel (h.run st p d).2 := by
    unfold triggersOn
    rw [List.mem_filter]
    exact ⟨ha, by simp [hsa, hch]⟩
  have hmb : b ∈ triggersOn b.channel (h.run st p d).2 := by
    unfold triggersOn
    rw [List.mem_filter]
    exact ⟨hb, by simp [hsb]⟩
  have hab := mem_of_length_le_one _ (triggersOn_length h st p d b.channel) a b hma hmb
  subst hab
  cases a <;> simp [SampleCall.isStart, SampleCall.isStop] at hsa hsb

end Zaxxon
